import Mathlib

/-!
Shallow embedding of the MWIMS warehouse backend (`backend.js`).

The backend is an Express application over a MySQL store.  We model the
persistent store as an explicit `DB` value (one list per table, plus the
auto-increment counters) and each endpoint as a pure function
`DB → args → DB × Except String result`.  Every mutating endpoint in the
source runs inside a transaction (`beginTransaction` … `commit` /
`rollback`); a thrown error always reaches `connection.rollback()`, so an
endpoint that fails returns the store unchanged.  We model this by building
the new state and discarding it on the error path.

Numbers: quantities and capacities are `INT` columns and JS numbers; we use
`Int`.  Temperatures (`DECIMAL(5,2)`) are modelled as `Int` (only order
comparisons matter to the logic).  Dates (`expiry_date`, a `DATE`) are day
numbers, timestamps (`last_temp_update`) are millisecond counts, both `Int`.
-/

namespace MWIMS

/-- Row of the `products` table (columns the core logic reads). -/
structure Product where
  product_id : Nat
  name : String
  category : String
  deriving Repr, DecidableEq

/-- Row of the `storage_locations` table. -/
structure StorageLocation where
  location_id : Nat
  zone : String
  rack : String
  slot : String
  location_type : String
  capacity : Int
  current_occupancy : Int
  min_temp : Option Int
  max_temp : Option Int
  latest_temperature : Option Int
  last_temp_update : Option Int
  deriving Repr, DecidableEq

/-- Row of the `batches` table. -/
structure Batch where
  batch_id : Nat
  product_id : Nat
  batch_number : String
  manufacture_date : Option Int
  expiry_date : Int
  quantity : Int
  barcode : String
  assigned_location_id : Option Nat
  status : String
  deriving Repr, DecidableEq

/-- Row of the `orders` table. -/
structure OrderRow where
  order_id : Nat
  status : String
  deriving Repr, DecidableEq

/-- Row of the `order_items` table. -/
structure OrderItem where
  order_id : Nat
  product_id : Nat
  quantity : Int
  deriving Repr, DecidableEq

/-- Row of the `order_batch_picks` table. -/
structure OrderBatchPick where
  pick_id : Nat
  order_id : Nat
  batch_id : Nat
  quantity_picked : Int
  status : String
  deriving Repr, DecidableEq

/-- Row of the `temperature_logs` table: (location_id, reading, timestamp). -/
structure TemperatureLog where
  location_id : Nat
  temperature_reading : Int
  timestamp : Int
  deriving Repr, DecidableEq

/-- The whole MySQL store, with the auto-increment counters made explicit. -/
structure DB where
  products : List Product
  storage_locations : List StorageLocation
  batches : List Batch
  orders : List OrderRow
  order_items : List OrderItem
  order_batch_picks : List OrderBatchPick
  temperature_logs : List TemperatureLog
  next_product_id : Nat
  next_location_id : Nat
  next_batch_id : Nat
  next_order_id : Nat
  next_pick_id : Nat
  deriving Repr, DecidableEq

/-- The freshly created database of `database.sql`: every table empty. -/
def initDB : DB :=
  { products := [], storage_locations := [], batches := [], orders := []
    order_items := [], order_batch_picks := [], temperature_logs := []
    next_product_id := 1, next_location_id := 1, next_batch_id := 1
    next_order_id := 1, next_pick_id := 1 }

/-- JS numeric coercion of a nullable column: `Number(null) = 0`.  Used where
the JS code compares a possibly-`null` value with `<`, `>=`, `<=`. -/
def jsNumber (o : Option Int) : Int := o.getD 0

/-- SQL three-valued `<` on nullable columns: any comparison with `NULL` is
not true. -/
def sqlLt : Option Int → Option Int → Bool
  | some a, some b => decide (a < b)
  | _, _ => false

/-! ### Smart allocation (`findSuitableLocation`, backend.js lines 57–111) -/

/-- Free capacity of a location, the sort key `capacity - current_occupancy`. -/
def freeCapacity (l : StorageLocation) : Int := l.capacity - l.current_occupancy

/-- The `ORDER BY (capacity - current_occupancy) DESC` ordering: `a` comes
before `b` when `a` has at least as much free capacity. -/
def slackGE (a b : StorageLocation) : Prop := freeCapacity b ≤ freeCapacity a

instance : DecidableRel slackGE := fun _ _ => Int.decLe _ _

instance : IsTotal StorageLocation slackGE :=
  ⟨fun a b => Int.le_total (freeCapacity b) (freeCapacity a)⟩

instance : IsTrans StorageLocation slackGE :=
  ⟨fun _ _ _ hab hbc => le_trans hbc hab⟩

/-- The candidate query of `findSuitableLocation`: locations of the product's
type whose occupancy can absorb the quantity
(`current_occupancy + ? <= capacity`), ordered by
`(capacity - current_occupancy) DESC`.  `ORDER BY` on equal keys is modelled
as a stable sort. -/
def candidateLocations (db : DB) (category : String) (quantityNeeded : Int) :
    List StorageLocation :=
  List.insertionSort slackGE
    (db.storage_locations.filter fun l =>
      l.location_type == category &&
      decide (l.current_occupancy + quantityNeeded ≤ l.capacity))

/-- The temperature gate of the Cold Storage loop (line 85):
`latest_temperature === null || (t >= min_temp && t <= max_temp)`.
`min_temp`/`max_temp` are never `null` on a Cold Storage location created
through the API; if they were, JS would coerce `null` to `0`. -/
def coldTempOk (l : StorageLocation) : Bool :=
  match l.latest_temperature with
  | none => true
  | some t => decide (jsNumber l.min_temp ≤ t) && decide (t ≤ jsNumber l.max_temp)

/-- The `for (const loc of candidateLocations) { if … break }` loop of the
Cold Storage branch: first candidate passing `coldTempOk`, if any. -/
def firstColdSuitable : List StorageLocation → Option StorageLocation
  | [] => none
  | l :: rest => if coldTempOk l then some l else firstColdSuitable rest

/-- `findSuitableLocation(connection, productId, quantityNeeded)`.  A missing
product throws; the surrounding `catch` rethrows it as the generic internal
error.  Otherwise the function only reads and returns `some` suitable
location or `none`. -/
def findSuitableLocation (db : DB) (productId : Nat) (quantityNeeded : Int) :
    Except String (Option StorageLocation) :=
  match db.products.find? (fun p => p.product_id == productId) with
  | none => .error "Internal error during smart allocation."
  | some p =>
    let cands := candidateLocations db p.category quantityNeeded
    if p.category == "Cold Storage" then .ok (firstColdSuitable cands)
    else .ok cands.head?

/-! ### Simple mutations used by the occupancy ledger -/

/-- `UPDATE storage_locations SET current_occupancy = current_occupancy + δ
WHERE location_id = ?`. -/
def bumpOccupancy (db : DB) (lid : Nat) (delta : Int) : DB :=
  { db with storage_locations := db.storage_locations.map fun l =>
      if l.location_id == lid then
        { l with current_occupancy := l.current_occupancy + delta } else l }

/-! ### `POST /products` (backend.js lines 128–151) -/

/-- Create a product.  Name and category are required, category must be
`Ambient` or `Cold Storage`, and the name is `UNIQUE`. -/
def postProducts (db : DB) (name category : String) : DB × Except String Nat :=
  if name == "" || category == "" then
    (db, .error "Product name and category are required.")
  else if !(category == "Ambient" || category == "Cold Storage") then
    (db, .error "Invalid category.")
  else if db.products.any (fun p => p.name == name) then
    (db, .error "Product already exists.")
  else
    ({ db with
        products := db.products ++
          [{ product_id := db.next_product_id, name := name, category := category }]
        next_product_id := db.next_product_id + 1 },
     .ok db.next_product_id)

/-! ### `POST /storage_locations` (backend.js lines 209–246) -/

/-- Create a storage location.  Zone/rack/slot and a positive capacity are
required; Cold Storage locations must carry temperature bounds, Ambient ones
have them nulled; (zone, rack, slot) is `UNIQUE`; `current_occupancy` always
starts at 0. -/
def postStorageLocations (db : DB) (zone rack slot location_type : String)
    (capacity : Int) (min_temp max_temp : Option Int) :
    DB × Except String Nat :=
  if zone == "" || rack == "" || slot == "" || decide (capacity ≤ 0) ||
      location_type == "" then
    (db, .error "Zone, Rack, Slot, Location Type, and a valid positive Capacity are required.")
  else if !(location_type == "Ambient" || location_type == "Cold Storage") then
    (db, .error "Invalid location type.")
  else if location_type == "Cold Storage" && (min_temp.isNone || max_temp.isNone) then
    (db, .error "Min/Max Temperatures are required for Cold Storage locations.")
  else if db.storage_locations.any
      (fun l => l.zone == zone && l.rack == rack && l.slot == slot) then
    (db, .error "A location with this Zone, Rack, and Slot already exists.")
  else
    ({ db with
        storage_locations := db.storage_locations ++
          [{ location_id := db.next_location_id, zone := zone, rack := rack
             slot := slot, location_type := location_type, capacity := capacity
             current_occupancy := 0
             min_temp := if location_type == "Cold Storage" then min_temp else none
             max_temp := if location_type == "Cold Storage" then max_temp else none
             latest_temperature := none, last_temp_update := none }]
        next_location_id := db.next_location_id + 1 },
     .ok db.next_location_id)

/-! ### `POST /batches` (backend.js lines 281–332): intake with allocation -/

/-- Create a batch.  Validates the request, smart-allocates a location, inserts
the batch with status `Available` and the allocated location, and increments
that location's occupancy by the batch quantity, all in one transaction.
Unique keys `batch_number` and `barcode` make a clashing insert fail (the
`ER_DUP_ENTRY` path), rolling the transaction back. -/
def postBatches (db : DB) (product_id : Nat) (batch_number : String)
    (manufacture_date : Option Int) (expiry_date : Int) (quantity : Int)
    (barcode : Option String) : DB × Except String Nat :=
  if product_id == 0 || batch_number == "" || decide (quantity ≤ 0) then
    (db, .error "Missing required batch fields (product, batch number, expiry date, or valid quantity).")
  else
    match findSuitableLocation db product_id quantity with
    | .error e => (db, .error e)
    | .ok none =>
      (db, .error "No suitable storage location found based on product criteria, capacity, and temperature.")
    | .ok (some loc) =>
      if db.batches.any (fun b => b.batch_number == batch_number ||
          b.barcode == barcode.getD batch_number) then
        (db, .error "Batch number already exists.")
      else
        (bumpOccupancy
          { db with
              batches := db.batches ++
                [{ batch_id := db.next_batch_id, product_id := product_id
                   batch_number := batch_number
                   manufacture_date := manufacture_date
                   expiry_date := expiry_date, quantity := quantity
                   barcode := barcode.getD batch_number
                   assigned_location_id := some loc.location_id
                   status := "Available" }]
              next_batch_id := db.next_batch_id + 1 }
          loc.location_id quantity,
         .ok db.next_batch_id)

/-! ### `PUT /batches/:id` (backend.js lines 335–389): batch edit -/

/-- Update a batch.  Reads the old quantity and assigned location, overwrites
the row's mutable columns (the assigned location is not among them), and, when
a location is assigned, adjusts its occupancy by `quantity - oldQuantity`.
There is no capacity check on this path. -/
def putBatches (db : DB) (id product_id : Nat) (batch_number : String)
    (manufacture_date : Option Int) (expiry_date : Int) (quantity : Int)
    (barcode : Option String) (status : String) : DB × Except String Unit :=
  if product_id == 0 || batch_number == "" || decide (quantity < 0) || status == "" then
    (db, .error "Missing required batch fields for update, or invalid quantity.")
  else
    match db.batches.find? (fun b => b.batch_id == id) with
    | none => (db, .error "Batch not found.")
    | some old =>
      if db.batches.any (fun b =>
          !(b.batch_id == id) && (b.batch_number == batch_number ||
            b.barcode == barcode.getD batch_number)) then
        (db, .error "Batch number already exists for another batch.")
      else
        match old.assigned_location_id with
        | some lid =>
          (bumpOccupancy
            { db with batches := db.batches.map fun b =>
                if b.batch_id == id then
                  { b with product_id := product_id, batch_number := batch_number
                           manufacture_date := manufacture_date
                           expiry_date := expiry_date, quantity := quantity
                           barcode := barcode.getD batch_number, status := status }
                else b }
            lid (quantity - old.quantity), .ok ())
        | none =>
          ({ db with batches := db.batches.map fun b =>
              if b.batch_id == id then
                { b with product_id := product_id, batch_number := batch_number
                         manufacture_date := manufacture_date
                         expiry_date := expiry_date, quantity := quantity
                         barcode := barcode.getD batch_number, status := status }
              else b }, .ok ())

/-! ### `DELETE /batches/:id` (backend.js lines 392–440): deletion cascade -/

/-- Delete a batch: remove its picks (`DELETE FROM order_batch_picks WHERE
batch_id = ?` — no condition on the picks' orders), delete the batch row, and
decrement the assigned location's occupancy by the batch's quantity when a
location is assigned.  A missing batch throws, rolling back. -/
def deleteBatches (db : DB) (id : Nat) : DB × Except String Unit :=
  match db.batches.find? (fun b => b.batch_id == id) with
  | none => (db, .error "Batch not found.")
  | some b =>
    match b.assigned_location_id with
    | some lid =>
      (bumpOccupancy
        { db with
            order_batch_picks :=
              db.order_batch_picks.filter fun p => !(p.batch_id == id)
            batches := db.batches.filter fun bb => !(bb.batch_id == id) }
        lid (-b.quantity), .ok ())
    | none =>
      ({ db with
          order_batch_picks :=
            db.order_batch_picks.filter fun p => !(p.batch_id == id)
          batches := db.batches.filter fun bb => !(bb.batch_id == id) }, .ok ())

/-! ### `POST /orders` (backend.js lines 482–567): FEFO fulfillment -/

/-- The `ORDER BY expiry_date ASC` ordering of the fulfillment query. -/
def expiryLe (a b : Batch) : Prop := a.expiry_date ≤ b.expiry_date

instance : DecidableRel expiryLe := fun _ _ => Int.decLe _ _

instance : IsTotal Batch expiryLe :=
  ⟨fun a b => Int.le_total a.expiry_date b.expiry_date⟩

instance : IsTrans Batch expiryLe := ⟨fun _ _ _ hab hbc => le_trans hab hbc⟩

/-- The candidate query of the fulfillment loop: batches of the product with
`quantity > 0` and status `Available`, ordered by `expiry_date ASC` (no
secondary key; ties keep table order, a stable sort).  The filter never
mentions `expiry_date` itself: expired stock stays eligible. -/
def fefoCandidates (db : DB) (product_id : Nat) : List Batch :=
  List.insertionSort expiryLe
    (db.batches.filter fun b =>
      b.product_id == product_id && decide (0 < b.quantity) &&
        b.status == "Available")

/-- `INSERT INTO order_batch_picks … status 'Pending Pick'`. -/
def addPickRow (db : DB) (order_id batch_id : Nat) (qty : Int) : DB :=
  { db with
      order_batch_picks := db.order_batch_picks ++
        [{ pick_id := db.next_pick_id, order_id := order_id, batch_id := batch_id
           quantity_picked := qty, status := "Pending Pick" }]
      next_pick_id := db.next_pick_id + 1 }

/-- `UPDATE batches SET quantity = quantity - ? WHERE batch_id = ?`. -/
def decBatchQty (db : DB) (bid : Nat) (q : Int) : DB :=
  { db with batches := db.batches.map fun b =>
      if b.batch_id == bid then { b with quantity := b.quantity - q } else b }

/-- The inner loop of `POST /orders`: walk the candidate snapshot, break once
nothing remains to pick, otherwise take `min(remaining, batch.quantity)`,
record a `Pending Pick`, decrement the batch's quantity and — when the batch
has an assigned location — that location's occupancy.  Returns the final store
and the remaining unpicked quantity. -/
def consumeBatches (order_id : Nat) : List Batch → Int → DB → DB × Int
  | [], rem, db => (db, rem)
  | b :: rest, rem, db =>
    if decide (rem ≤ 0) then (db, rem)
    else
      let take := min rem b.quantity
      let db1 := addPickRow db order_id b.batch_id take
      let db2 := decBatchQty db1 b.batch_id take
      let db3 :=
        match b.assigned_location_id with
        | some lid => bumpOccupancy db2 lid (-take)
        | none => db2
      consumeBatches order_id rest (rem - take) db3

/-- One iteration of the `for (const item of items)` loop: validate the item,
insert the `order_items` row, fetch the FEFO candidates, consume them, and
throw when the item could not be fully picked. -/
def processOrderItem (order_id : Nat) (db : DB) (item : Nat × Int) :
    Except String DB :=
  if item.1 == 0 || decide (item.2 ≤ 0) then
    .error "Invalid product or quantity in order item."
  else
    let db1 : DB :=
      { db with order_items := db.order_items ++
          [{ order_id := order_id, product_id := item.1, quantity := item.2 }] }
    let r := consumeBatches order_id (fefoCandidates db1 item.1) item.2 db1
    if decide (0 < r.2) then .error "Insufficient stock for product."
    else .ok r.1

/-- The transactional body of `POST /orders`: insert the order with status
`Pending`, then process every item in sequence.  Any throw aborts the body. -/
def ordersBody (db : DB) (items : List (Nat × Int)) : Except String DB :=
  let db1 : DB :=
    { db with
        orders := db.orders ++ [{ order_id := db.next_order_id, status := "Pending" }]
        next_order_id := db.next_order_id + 1 }
  items.foldlM (processOrderItem db.next_order_id) db1

/-- `POST /orders`: the empty-items check answers before any transaction; a
failing body is rolled back, leaving the store untouched. -/
def postOrders (db : DB) (items : List (Nat × Int)) : DB × Except String Nat :=
  if items.isEmpty then (db, .error "Order must contain at least one item.")
  else
    match ordersBody db items with
    | .error e => (db, .error e)
    | .ok db1 => (db1, .ok db.next_order_id)

/-! ### `POST /temperature_logs` (backend.js lines 718–758) -/

/-- Log a temperature: append the historical row and refresh the location's
cached `latest_temperature` / `last_temp_update`. -/
def postTemperatureLogs (db : DB) (location_id : Nat) (reading now : Int) :
    DB × Except String Unit :=
  ({ db with
      temperature_logs := db.temperature_logs ++
        [{ location_id := location_id, temperature_reading := reading, timestamp := now }]
      storage_locations := db.storage_locations.map fun l =>
        if l.location_id == location_id then
          { l with latest_temperature := some reading, last_temp_update := some now }
        else l },
   .ok ())

/-! ### `PUT /orders/:orderId` and `PUT /order_batch_picks/:pickId` -/

/-- Update an order's status (backend.js lines 570–593). -/
def putOrders (db : DB) (order_id : Nat) (status : String) :
    DB × Except String Unit :=
  if !(["Pending", "Completed", "Dispatched", "Cancelled"].contains status) then
    (db, .error "Invalid order status provided.")
  else if !(db.orders.any (fun o => o.order_id == order_id)) then
    (db, .error "Order not found.")
  else
    ({ db with orders := db.orders.map fun o =>
        if o.order_id == order_id then { o with status := status } else o },
     .ok ())

/-- Update a pick's status (backend.js lines 597–620). -/
def putOrderBatchPicks (db : DB) (pick_id : Nat) (status : String) :
    DB × Except String Unit :=
  if !(["Picked", "Pending Pick", "Dispatched"].contains status) then
    (db, .error "Invalid pick status provided.")
  else if !(db.order_batch_picks.any (fun p => p.pick_id == pick_id)) then
    (db, .error "Pick item not found.")
  else
    ({ db with order_batch_picks := db.order_batch_picks.map fun p =>
        if p.pick_id == pick_id then { p with status := status } else p },
     .ok ())

/-! ### `GET /verify-barcode/:barcode` (backend.js lines 644–714) -/

/-- Result shape of barcode verification.  Message texts that interpolate
dates or ids in the source are abbreviated to their fixed prefixes, except the
not-found message, which the source emits verbatim. -/
structure VerifyResult where
  isValid : Bool
  messages : List String
  deriving Repr, DecidableEq

/-- Barcode verification, a pure read returning the store unchanged.  The
lookup joins `batches` with `products`; `today` is the day number of the
current date.  The JS hour adjustments make the date tests day-granular:
`expiryDate < today` on end-of-day vs start-of-day is `expiry_date < today`,
and the 30-day window test is `expiry_date ≤ today + 30`. -/
def verifyBarcode (db : DB) (today : Int) (barcode : String) :
    DB × VerifyResult :=
  match (db.batches.filter fun b =>
      b.barcode == barcode &&
      db.products.any (fun p => p.product_id == b.product_id)).head? with
  | none => (db, { isValid := false, messages := ["Barcode not found."] })
  | some batch =>
    let outOfStock := decide (batch.quantity ≤ 0)
    let valid1 := !outOfStock
    let msgs1 : List String :=
      if outOfStock then ["Batch is out of stock."] else []
    let expired := decide (batch.expiry_date < today)
    let valid2 := valid1 && !expired
    let msgs2 : List String :=
      if expired then msgs1 ++ ["Expired."]
      else if decide (batch.expiry_date ≤ today + 30) then msgs1 ++ ["Expiring Soon."]
      else msgs1
    let pendingPicks := db.order_batch_picks.filter fun pk =>
      pk.batch_id == batch.batch_id && pk.status == "Pending Pick" &&
      db.orders.any (fun o => o.order_id == pk.order_id && o.status == "Pending")
    if !pendingPicks.isEmpty then
      (db, { isValid := valid2, messages := msgs2 ++ ["Part of pending order(s) for picking."] })
    else if decide (0 < batch.quantity) && !expired then
      (db, { isValid := false
             messages := msgs2 ++ ["This batch is not part of any *active* pending pick list."] })
    else
      (db, { isValid := valid2, messages := msgs2 })

/-! ### `GET /alerts/temperature` (backend.js lines 813–867) -/

/-- The SQL `WHERE` clause of the temperature-alert query: Cold Storage
locations with a null reading, a reading out of bounds, a null update time, or
an update older than one hour (`now` in milliseconds; SQL comparisons with
`NULL` are not true). -/
def tempAlertCondition (now : Int) (l : StorageLocation) : Bool :=
  l.location_type == "Cold Storage" &&
    (l.latest_temperature.isNone ||
     sqlLt l.latest_temperature l.min_temp ||
     sqlLt l.max_temp l.latest_temperature ||
     l.last_temp_update.isNone ||
     sqlLt l.last_temp_update (some (now - 3600000)))

/-- The JS classification of a selected row, in source order: no readings,
then too low, then too high, then stale; a row matching no branch keeps the
empty `alert_type`. -/
def classifyTempAlert (now : Int) (l : StorageLocation) : String :=
  if l.latest_temperature.isNone || l.last_temp_update.isNone then "No Readings"
  else if decide (jsNumber l.latest_temperature < jsNumber l.min_temp) then
    "Low Temperature"
  else if decide (jsNumber l.max_temp < jsNumber l.latest_temperature) then
    "High Temperature"
  else if decide (jsNumber l.last_temp_update < now - 3600000) then "Stale Reading"
  else ""

/-- `GET /alerts/temperature`: the selected locations, each with its
classification. -/
def getTemperatureAlerts (db : DB) (now : Int) : List (Nat × String) :=
  (db.storage_locations.filter (tempAlertCondition now)).map fun l =>
    (l.location_id, classifyTempAlert now l)

/-! ### The occupancy ledger invariant and well-formedness -/

/-- Total quantity of the batches currently assigned to location `lid`. -/
def locationStock (bs : List Batch) (lid : Nat) : Int :=
  ((bs.filter fun b => b.assigned_location_id == some lid).map Batch.quantity).sum

/-- The ledger relation between a location table and a batch table: every
location's `current_occupancy` equals the sum of the quantities of the batches
assigned to it. -/
def occInvOn (locs : List StorageLocation) (bs : List Batch) : Prop :=
  ∀ l ∈ locs, l.current_occupancy = locationStock bs l.location_id

instance (locs : List StorageLocation) (bs : List Batch) :
    Decidable (occInvOn locs bs) := by
  unfold occInvOn; infer_instance

/-- The ledger invariant of a store. -/
def occupancyInvariant (db : DB) : Prop :=
  occInvOn db.storage_locations db.batches

instance (db : DB) : Decidable (occupancyInvariant db) := by
  unfold occupancyInvariant; infer_instance

/-- Structural facts the auto-increment primary keys guarantee: batch ids are
distinct and below the counter, and ids of locations (hence of the locations
batches are assigned to) are below the location counter. -/
structure Wf (db : DB) : Prop where
  batchIdsNodup : (db.batches.map Batch.batch_id).Nodup
  batchIdsLt : ∀ b ∈ db.batches, b.batch_id < db.next_batch_id
  locationIdsLt : ∀ l ∈ db.storage_locations, l.location_id < db.next_location_id
  assignedLt : ∀ b ∈ db.batches, ∀ lid, b.assigned_location_id = some lid →
    lid < db.next_location_id

/-- States reachable from the fresh database through the API's mutating
endpoints. -/
inductive Reachable : DB → Prop
  | init : Reachable initDB
  | product (db : DB) (n c : String) :
      Reachable db → Reachable (postProducts db n c).1
  | location (db : DB) (z r s t : String) (cap : Int) (mt xt : Option Int) :
      Reachable db → Reachable (postStorageLocations db z r s t cap mt xt).1
  | batchCreate (db : DB) (pid : Nat) (bn : String) (md : Option Int)
      (ed q : Int) (bc : Option String) :
      Reachable db → Reachable (postBatches db pid bn md ed q bc).1
  | batchUpdate (db : DB) (id pid : Nat) (bn : String) (md : Option Int)
      (ed q : Int) (bc : Option String) (st : String) :
      Reachable db → Reachable (putBatches db id pid bn md ed q bc st).1
  | batchDelete (db : DB) (id : Nat) :
      Reachable db → Reachable (deleteBatches db id).1
  | order (db : DB) (items : List (Nat × Int)) :
      Reachable db → Reachable (postOrders db items).1
  | tempLog (db : DB) (lid : Nat) (reading now : Int) :
      Reachable db → Reachable (postTemperatureLogs db lid reading now).1
  | orderStatus (db : DB) (oid : Nat) (st : String) :
      Reachable db → Reachable (putOrders db oid st).1
  | pickStatus (db : DB) (pid : Nat) (st : String) :
      Reachable db → Reachable (putOrderBatchPicks db pid st).1

/-! ### Spec-side descriptions, for the refinement statements

These definitions follow the specification's wording of the fulfillment and
alert algorithms; the theorems below compare the translated endpoint code
against them. -/

/-- One planned pick of the spec's greedy depletion: which batch, that batch's
assigned location, and the amount taken. -/
structure PlannedPick where
  batch_id : Nat
  assigned_location_id : Option Nat
  take : Int
  deriving Repr, DecidableEq

/-- The spec's greedy FEFO depletion plan: walk the candidates in order, take
`min(remaining, batch.quantity)` from each, stop once nothing remains. -/
def greedyPlan : List Batch → Int → List PlannedPick
  | [], _ => []
  | b :: rest, rem =>
    if rem ≤ 0 then []
    else
      { batch_id := b.batch_id, assigned_location_id := b.assigned_location_id
        take := min rem b.quantity } :: greedyPlan rest (rem - min rem b.quantity)

/-- Total quantity a plan takes. -/
def planTotal (ps : List PlannedPick) : Int := (ps.map PlannedPick.take).sum

/-- Quantity a plan takes from the batch with the given id. -/
def planTakeFor (ps : List PlannedPick) (id : Nat) : Int :=
  ((ps.filter fun p => p.batch_id == id).map PlannedPick.take).sum

/-- Quantity a plan takes out of the given location. -/
def planLocTake (ps : List PlannedPick) (lid : Nat) : Int :=
  ((ps.filter fun p => p.assigned_location_id == some lid).map PlannedPick.take).sum

/-- Application of one planned pick to the store: record the `Pending Pick`,
decrement the batch's quantity, and decrement the assigned location's
occupancy — skipped when the batch has no assigned location. -/
def applyPlannedPick (order_id : Nat) (db : DB) (p : PlannedPick) : DB :=
  let db2 := decBatchQty (addPickRow db order_id p.batch_id p.take) p.batch_id p.take
  match p.assigned_location_id with
  | some lid => bumpOccupancy db2 lid (-p.take)
  | none => db2

/-- The spec's temperature classification: exactly one class per location,
chosen by the priority `NoReadings` over `LowTemperature` over
`HighTemperature` over `StaleReading`; `none` when no condition matches. -/
def priorityClassification (now : Int) (l : StorageLocation) : Option String :=
  if l.latest_temperature.isNone || l.last_temp_update.isNone then some "No Readings"
  else if sqlLt l.latest_temperature l.min_temp then some "Low Temperature"
  else if sqlLt l.max_temp l.latest_temperature then some "High Temperature"
  else if sqlLt l.last_temp_update (some (now - 3600000)) then some "Stale Reading"
  else none

/-! ### Concrete stores used in the examples and witnesses -/

/-- A store built through the API: one Ambient product, one location of
capacity 100, and two batches of quantity 5 whose expiry day numbers 20089
and 20120 stand for 2025-01-01 and 2025-02-01. -/
def exDB : DB :=
  (postBatches
    (postBatches
      (postStorageLocations (postProducts initDB "Milk" "Ambient").1
        "A" "1" "1" "Ambient" 100 none none).1
      1 "B1" none 20089 5 none).1
    1 "B2" none 20120 5 none).1

/-- A reachable store in which a location of capacity 10 holds occupancy 20:
a batch of quantity 5 is created, then edited up to quantity 20 through
`PUT /batches/:id`, which has no capacity check. -/
def overCapDB : DB :=
  (putBatches
    (postBatches
      (postStorageLocations (postProducts initDB "Milk" "Ambient").1
        "A" "1" "1" "Ambient" 10 none none).1
      1 "B1" none 20089 5 none).1
    1 1 "B1" none 20089 20 none "Available").1

/-- A store for the Cold Storage allocation scenario: the roomiest candidate
(free 50) is out of range and must be skipped in favour of the next one
(free 40, in range). -/
def coldDB : DB :=
  { products := [{ product_id := 1, name := "Fish", category := "Cold Storage" }]
    storage_locations :=
      [{ location_id := 1, zone := "C", rack := "1", slot := "1"
         location_type := "Cold Storage", capacity := 50, current_occupancy := 0
         min_temp := some 2, max_temp := some 8
         latest_temperature := some 99, last_temp_update := some 0 },
       { location_id := 2, zone := "C", rack := "1", slot := "2"
         location_type := "Cold Storage", capacity := 40, current_occupancy := 0
         min_temp := some 2, max_temp := some 8
         latest_temperature := some 5, last_temp_update := some 0 }]
    batches := [], orders := [], order_items := [], order_batch_picks := []
    temperature_logs := []
    next_product_id := 2, next_location_id := 3, next_batch_id := 1
    next_order_id := 1, next_pick_id := 1 }

/-- A store holding a batch of quantity 12 assigned to a location, with a
pick referencing an order still in `Pending` status — the deletion-cascade
scenario of the spec. -/
def deleteDB : DB :=
  { products := [{ product_id := 1, name := "Milk", category := "Ambient" }]
    storage_locations :=
      [{ location_id := 1, zone := "A", rack := "1", slot := "1"
         location_type := "Ambient", capacity := 100, current_occupancy := 12
         min_temp := none, max_temp := none
         latest_temperature := none, last_temp_update := none }]
    batches :=
      [{ batch_id := 1, product_id := 1, batch_number := "B1"
         manufacture_date := none, expiry_date := 20089, quantity := 12
         barcode := "B1", assigned_location_id := some 1, status := "Available" }]
    orders := [{ order_id := 1, status := "Pending" }]
    order_items := [{ order_id := 1, product_id := 1, quantity := 12 }]
    order_batch_picks :=
      [{ pick_id := 1, order_id := 1, batch_id := 1, quantity_picked := 12
         status := "Pending Pick" }]
    temperature_logs := []
    next_product_id := 2, next_location_id := 2, next_batch_id := 2
    next_order_id := 2, next_pick_id := 2 }

/-- A store with one Cold Storage location in each alert situation (no
readings, too low, too high, stale, healthy) and one Ambient location, all
bounds `[2, 8]`, evaluated at `now = 7200000` ms. -/
def alertDB : DB :=
  { products := []
    storage_locations :=
      [{ location_id := 1, zone := "C", rack := "1", slot := "1"
         location_type := "Cold Storage", capacity := 10, current_occupancy := 0
         min_temp := some 2, max_temp := some 8
         latest_temperature := none, last_temp_update := none },
       { location_id := 2, zone := "C", rack := "1", slot := "2"
         location_type := "Cold Storage", capacity := 10, current_occupancy := 0
         min_temp := some 2, max_temp := some 8
         latest_temperature := some 0, last_temp_update := some 7200000 },
       { location_id := 3, zone := "C", rack := "1", slot := "3"
         location_type := "Cold Storage", capacity := 10, current_occupancy := 0
         min_temp := some 2, max_temp := some 8
         latest_temperature := some 10, last_temp_update := some 7200000 },
       { location_id := 4, zone := "C", rack := "1", slot := "4"
         location_type := "Cold Storage", capacity := 10, current_occupancy := 0
         min_temp := some 2, max_temp := some 8
         latest_temperature := some 5, last_temp_update := some 0 },
       { location_id := 5, zone := "C", rack := "1", slot := "5"
         location_type := "Cold Storage", capacity := 10, current_occupancy := 0
         min_temp := some 2, max_temp := some 8
         latest_temperature := some 5, last_temp_update := some 7200000 },
       { location_id := 6, zone := "A", rack := "1", slot := "1"
         location_type := "Ambient", capacity := 10, current_occupancy := 0
         min_temp := none, max_temp := none
         latest_temperature := none, last_temp_update := none }]
    batches := [], orders := [], order_items := [], order_batch_picks := []
    temperature_logs := []
    next_product_id := 1, next_location_id := 7, next_batch_id := 1
    next_order_id := 1, next_pick_id := 1 }

/-! ## Helper lemmas on the ledger arithmetic -/

theorem locationStock_nil (lid : Nat) : locationStock [] lid = 0 := rfl

theorem locationStock_cons (b : Batch) (bs : List Batch) (lid : Nat) :
    locationStock (b :: bs) lid =
      (if b.assigned_location_id = some lid then b.quantity else 0) +
        locationStock bs lid := by
  by_cases h : b.assigned_location_id = some lid <;>
    simp [locationStock, List.filter_cons, h]

theorem locationStock_append (bs1 bs2 : List Batch) (lid : Nat) :
    locationStock (bs1 ++ bs2) lid = locationStock bs1 lid + locationStock bs2 lid := by
  simp [locationStock, List.filter_append]

theorem locationStock_single (b : Batch) (lid : Nat) :
    locationStock [b] lid = if b.assigned_location_id = some lid then b.quantity else 0 := by
  rw [locationStock_cons, locationStock_nil, add_zero]

theorem locationStock_eq_zero (bs : List Batch) (lid : Nat)
    (h : ∀ b ∈ bs, b.assigned_location_id ≠ some lid) : locationStock bs lid = 0 := by
  have hnil : bs.filter (fun b => b.assigned_location_id == some lid) = [] :=
    List.filter_eq_nil_iff.2 (fun b hb => by simpa using h b hb)
  simp [locationStock, hnil]

/-- A row of a table with pairwise-distinct batch ids is what `find?` by its
id returns. -/
theorem find?_batch_eq_of_mem (bs : List Batch) (row : Batch)
    (hnd : (bs.map Batch.batch_id).Nodup) (hmem : row ∈ bs) :
    bs.find? (fun b => b.batch_id == row.batch_id) = some row := by
  induction bs with
  | nil => cases hmem
  | cons b rest ih =>
    rcases List.mem_cons.1 hmem with rfl | hmem'
    · exact List.find?_cons_of_pos rest (by simp)
    · have hb : ¬ b.batch_id = row.batch_id := by
        intro he
        exact (List.nodup_cons.1 hnd).1
          (he ▸ List.mem_map_of_mem Batch.batch_id hmem')
      rw [List.find?_cons_of_neg rest (by simpa using hb)]
      exact ih (List.nodup_cons.1 hnd).2 hmem'

/-- Rewriting the row with a given batch id through a map that preserves its
assigned location changes a location's stock by that row's quantity delta. -/
theorem locationStock_map_update (bs : List Batch) (id : Nat) (f : Batch → Batch)
    (hloc : ∀ b, (f b).assigned_location_id = b.assigned_location_id)
    (hnd : (bs.map Batch.batch_id).Nodup) (old : Batch)
    (hf : bs.find? (fun b => b.batch_id == id) = some old) (lid : Nat) :
    locationStock (bs.map fun b => if b.batch_id == id then f b else b) lid =
      locationStock bs lid +
        (if old.assigned_location_id = some lid then (f old).quantity - old.quantity
         else 0) := by
  induction bs with
  | nil => simp at hf
  | cons b rest ih =>
    by_cases hb : b.batch_id = id
    · have hold : old = b := by
        rw [List.find?_cons_of_pos rest (by simpa using hb)] at hf
        exact (Option.some_inj.1 hf).symm
      subst hold
      have hrest : rest.map (fun bb => if bb.batch_id == id then f bb else bb) = rest := by
        have hall : ∀ bb ∈ rest, (if bb.batch_id == id then f bb else bb) = bb := by
          intro bb hbb
          have hne : ¬ bb.batch_id = id := by
            intro he
            exact (List.nodup_cons.1 hnd).1
              ((hb.trans he.symm) ▸ List.mem_map_of_mem Batch.batch_id hbb)
          simp [hne]
        rw [List.map_congr_left hall, List.map_id']
      have hhead : (if old.batch_id == id then f old else old) = f old := by simp [hb]
      rw [List.map_cons, hhead, hrest, locationStock_cons, locationStock_cons, hloc old]
      by_cases hc : old.assigned_location_id = some lid
      · simp only [if_pos hc]; ring
      · simp only [if_neg hc]; ring
    · rw [List.find?_cons_of_neg rest (by simpa using hb)] at hf
      have hhead : (if b.batch_id == id then f b else b) = b := by simp [hb]
      rw [List.map_cons, hhead, locationStock_cons, locationStock_cons,
        ih (List.nodup_cons.1 hnd).2 hf]
      ring

/-- Deleting the row with a given batch id lowers a location's stock by that
row's quantity when the row was assigned there. -/
theorem locationStock_filter_out (bs : List Batch) (id : Nat)
    (hnd : (bs.map Batch.batch_id).Nodup) (old : Batch)
    (hf : bs.find? (fun b => b.batch_id == id) = some old) (lid : Nat) :
    locationStock (bs.filter fun b => !(b.batch_id == id)) lid =
      locationStock bs lid -
        (if old.assigned_location_id = some lid then old.quantity else 0) := by
  induction bs with
  | nil => simp at hf
  | cons b rest ih =>
    by_cases hb : b.batch_id = id
    · have hold : old = b := by
        rw [List.find?_cons_of_pos rest (by simpa using hb)] at hf
        exact (Option.some_inj.1 hf).symm
      subst hold
      have hrest : rest.filter (fun bb => !(bb.batch_id == id)) = rest := by
        apply List.filter_eq_self.2
        intro bb hbb
        have hne : ¬ bb.batch_id = id := by
          intro he
          exact (List.nodup_cons.1 hnd).1
            ((hb.trans he.symm) ▸ List.mem_map_of_mem Batch.batch_id hbb)
        simp [hne]
      have hdrop : ((old :: rest).filter fun bb => !(bb.batch_id == id)) = rest := by
        rw [List.filter_cons]
        simp [hb, hrest]
      rw [hdrop, locationStock_cons]
      ring
    · rw [List.find?_cons_of_neg rest (by simpa using hb)] at hf
      have hkeep : ((b :: rest).filter fun bb => !(bb.batch_id == id)) =
          b :: rest.filter (fun bb => !(bb.batch_id == id)) := by
        rw [List.filter_cons]
        simp [hb]
      rw [hkeep, locationStock_cons, locationStock_cons,
        ih (List.nodup_cons.1 hnd).2 hf]
      ring

/-- The ledger relation survives a combined batch change and occupancy bump
when the stock delta is concentrated at the bumped location. -/
theorem occInvOn_bump (locs : List StorageLocation) (bs bs' : List Batch)
    (lid : Nat) (delta : Int) (h : occInvOn locs bs)
    (hst : ∀ x, locationStock bs' x =
      locationStock bs x + (if x = lid then delta else 0)) :
    occInvOn
      (locs.map fun l => if l.location_id == lid then
        { l with current_occupancy := l.current_occupancy + delta } else l)
      bs' := by
  intro l' hl'
  rcases List.mem_map.1 hl' with ⟨l, hl, hEq⟩
  by_cases hc : l.location_id = lid
  · have : l' = { l with current_occupancy := l.current_occupancy + delta } := by
      rw [← hEq]; simp [hc]
    subst this
    show l.current_occupancy + delta = locationStock bs' l.location_id
    rw [hst l.location_id, if_pos hc, h l hl]
  · have : l' = l := by rw [← hEq]; simp [hc]
    subst this
    rw [hst l'.location_id, if_neg hc, add_zero]
    exact h l' hl

/-- The ledger relation survives a batch change that leaves every location's
stock unchanged. -/
theorem occInvOn_congr (locs : List StorageLocation) (bs bs' : List Batch)
    (h : occInvOn locs bs)
    (hst : ∀ x, locationStock bs' x = locationStock bs x) : occInvOn locs bs' := by
  intro l hl
  rw [hst l.location_id]
  exact h l hl

/-! ## Helper lemmas on the allocator -/

/-- The Cold Storage candidate loop is exactly `find?` with the temperature
gate. -/
theorem firstColdSuitable_eq_find? (ls : List StorageLocation) :
    firstColdSuitable ls = ls.find? coldTempOk := by
  induction ls with
  | nil => rfl
  | cons l rest ih =>
    by_cases h : coldTempOk l
    · rw [firstColdSuitable, if_pos h, List.find?_cons_of_pos rest h]
    · rw [firstColdSuitable, if_neg h, List.find?_cons_of_neg rest h, ih]

/-- Membership in the allocator's candidate list, unfolded to the row
conditions of its query. -/
theorem mem_candidateLocations (db : DB) (category : String) (q : Int)
    (l : StorageLocation) :
    l ∈ candidateLocations db category q ↔
      l ∈ db.storage_locations ∧ l.location_type = category ∧
        l.current_occupancy + q ≤ l.capacity := by
  unfold candidateLocations
  rw [List.mem_insertionSort, List.mem_filter]
  simp [and_assoc]

/-- Any location the allocator returns is a candidate row. -/
theorem findSuitableLocation_some (db : DB) (pid : Nat) (q : Int)
    (loc : StorageLocation)
    (h : findSuitableLocation db pid q = .ok (some loc)) :
    ∃ p, db.products.find? (fun r => r.product_id == pid) = some p ∧
      loc ∈ candidateLocations db p.category q := by
  unfold findSuitableLocation at h
  cases hp : db.products.find? (fun r => r.product_id == pid) with
  | none => simp only [hp] at h; exact absurd h (by simp)
  | some p =>
    simp only [hp] at h
    refine ⟨p, rfl, ?_⟩
    by_cases hc : (p.category == "Cold Storage") = true
    · rw [if_pos hc] at h
      have hfind := Except.ok.inj h
      rw [firstColdSuitable_eq_find?] at hfind
      exact List.mem_of_find?_eq_some hfind
    · rw [if_neg hc] at h
      have hhead := Except.ok.inj h
      exact List.mem_of_mem_head? (hhead ▸ Option.mem_def.2 rfl)

/-! ## C10: barcode verification on an unknown barcode -/

/-- C10: `verifyBarcode` called with a barcode matching no batch returns
exactly `{isValid: false, messages: ["Barcode not found."]}` and leaves the
store untouched. -/
theorem c10_verify_unknown_barcode (db : DB) (today : Int) (bc : String)
    (h : ∀ b ∈ db.batches, b.barcode ≠ bc) :
    verifyBarcode db today bc =
      (db, { isValid := false, messages := ["Barcode not found."] }) := by
  unfold verifyBarcode
  have hnil : (db.batches.filter fun b =>
      b.barcode == bc &&
      db.products.any (fun p => p.product_id == b.product_id)) = [] := by
    apply List.filter_eq_nil_iff.2
    intro b hb
    simp [h b hb]
  rw [hnil]
  rfl

/-- Witness for C10 at a concrete store and barcode. -/
theorem c10_witness :
    (∀ b ∈ exDB.batches, b.barcode ≠ "missing") ∧
      verifyBarcode exDB 20100 "missing" =
        (exDB, { isValid := false, messages := ["Barcode not found."] }) :=
  ⟨by decide, c10_verify_unknown_barcode exDB 20100 "missing" (by decide)⟩

/-! ## C7: batch deletion cascade -/

/-- C7: deleting an existing batch removes every pick that references it — no
condition on the picks' orders, so picks of a still-`Pending` order go too —
deletes the batch row, and, when the batch has an assigned location,
decrements that location's occupancy by exactly the batch's quantity at
deletion time; deleting a non-existent batch reports the not-found error with
the store unchanged. -/
theorem c7_deletion_cascade (db : DB) (id : Nat) :
    (∀ b, db.batches.find? (fun bb => bb.batch_id == id) = some b →
      (deleteBatches db id).2 = .ok () ∧
      (deleteBatches db id).1.order_batch_picks =
        db.order_batch_picks.filter (fun p => !(p.batch_id == id)) ∧
      (deleteBatches db id).1.batches =
        db.batches.filter (fun bb => !(bb.batch_id == id)) ∧
      (deleteBatches db id).1.storage_locations =
        db.storage_locations.map (fun l =>
          if b.assigned_location_id = some l.location_id then
            { l with current_occupancy := l.current_occupancy - b.quantity }
          else l)) ∧
    (db.batches.find? (fun bb => bb.batch_id == id) = none →
      deleteBatches db id = (db, .error "Batch not found.")) := by
  constructor
  · intro b hb
    unfold deleteBatches
    simp only [hb]
    cases ha : b.assigned_location_id with
    | none =>
      refine ⟨rfl, rfl, rfl, ?_⟩
      have hid : ∀ l ∈ db.storage_locations,
          (if (none : Option Nat) = some l.location_id then
            { l with current_occupancy := l.current_occupancy - b.quantity }
          else l) = l := by
        intro l _
        simp
      rw [List.map_congr_left hid, List.map_id']
    | some lid =>
      refine ⟨rfl, rfl, rfl, ?_⟩
      show db.storage_locations.map _ = db.storage_locations.map _
      apply List.map_congr_left
      intro l _
      by_cases hc : l.location_id = lid
      · simp [hc, sub_eq_add_neg]
      · have : ¬ some lid = some l.location_id := by simp [Ne.symm hc]
        simp [hc, this]
  · intro hf
    unfold deleteBatches
    simp only [hf]

/-- Witness for C7: deleting the quantity-12 batch of `deleteDB` (whose pick
references a `Pending` order) succeeds, removes the pick, and the occupancy
drops by 12; deleting an absent id fails without change. -/
theorem c7_witness :
    (deleteBatches deleteDB 1).2 = .ok () ∧
    (deleteBatches deleteDB 1).1.order_batch_picks = [] ∧
    (deleteBatches deleteDB 1).1.storage_locations =
      [{ location_id := 1, zone := "A", rack := "1", slot := "1"
         location_type := "Ambient", capacity := 100, current_occupancy := 0
         min_temp := none, max_temp := none
         latest_temperature := none, last_temp_update := none }] ∧
    deleteBatches deleteDB 2 = (deleteDB, .error "Batch not found.") := by
  have h := c7_deletion_cascade deleteDB 1
  have h2 := c7_deletion_cascade deleteDB 2
  refine ⟨(h.1 _ rfl).1, ?_, ?_, h2.2 rfl⟩
  · rw [(h.1 _ rfl).2.1]; rfl
  · rw [(h.1 _ rfl).2.2.2]; rfl

/-! ## C4: the allocator -/

/-- C4: with the product present, allocation returns exactly the first
candidate passing the Cold Storage temperature gate (out-of-range candidates
are skipped, not fatal), or the first candidate outright for other
categories, and `none` when no candidate qualifies; the candidates are
exactly the locations of the product's type with enough free capacity, in
descending free-capacity order.  The function only reads the store. -/
theorem c4_allocator (db : DB) (pid : Nat) (q : Int) (p : Product)
    (hp : db.products.find? (fun r => r.product_id == pid) = some p) :
    findSuitableLocation db pid q =
      .ok (if p.category = "Cold Storage" then
            (candidateLocations db p.category q).find? coldTempOk
          else (candidateLocations db p.category q).head?) ∧
    (∀ l, l ∈ candidateLocations db p.category q ↔
      (l ∈ db.storage_locations ∧ l.location_type = p.category ∧
        l.current_occupancy + q ≤ l.capacity)) ∧
    (candidateLocations db p.category q).Sorted slackGE := by
  refine ⟨?_, fun l => mem_candidateLocations db p.category q l,
    List.sorted_insertionSort slackGE _⟩
  unfold findSuitableLocation
  simp only [hp]
  by_cases hc : p.category = "Cold Storage"
  · rw [if_pos (by simp [hc]), if_pos hc, firstColdSuitable_eq_find?]
  · rw [if_neg (by simp [hc]), if_neg hc]

/-- Witness for C4 on `coldDB`: the roomiest candidate is out of range and
gets skipped; the allocator lands on the in-range location 2. -/
theorem c4_witness :
    coldDB.products.find? (fun r => r.product_id == 1) =
      some { product_id := 1, name := "Fish", category := "Cold Storage" } ∧
    (findSuitableLocation coldDB 1 10 =
      .ok (if ("Cold Storage" : String) = "Cold Storage" then
            (candidateLocations coldDB "Cold Storage" 10).find? coldTempOk
          else (candidateLocations coldDB "Cold Storage" 10).head?)) ∧
    (candidateLocations coldDB "Cold Storage" 10).find? coldTempOk =
      some { location_id := 2, zone := "C", rack := "1", slot := "2"
             location_type := "Cold Storage", capacity := 40
             current_occupancy := 0, min_temp := some 2, max_temp := some 8
             latest_temperature := some 5, last_temp_update := some 0 } := by
  refine ⟨rfl, ?_, by decide⟩
  exact (c4_allocator coldDB 1 10
    { product_id := 1, name := "Fish", category := "Cold Storage" } rfl).1

/-! ## C8: expired batches stay eligible for fulfillment -/

/-- C8: the fulfillment candidate query filters only on product id, positive
quantity and `Available` status — `expiry_date` never appears in the filter —
and orders by ascending expiry, so an expired batch still marked `Available`
is eligible and, sorting first, is consumed before any unexpired batch.
Concretely, in `exDB` at a `today` of 20100, batch 1 (expiry 20089) is
expired and batch 2 (expiry 20120) is not, yet an order for 7 picks 5 from
batch 1 first and 2 from batch 2 second. -/
theorem c8_expired_eligible (db : DB) (pid : Nat) :
    (∀ b, b ∈ fefoCandidates db pid ↔
      (b ∈ db.batches ∧ b.product_id = pid ∧ 0 < b.quantity ∧
        b.status = "Available")) ∧
    (fefoCandidates db pid).Sorted expiryLe ∧
    exDB.batches.map (fun b => (b.batch_id, decide (b.expiry_date < 20100))) =
      [(1, true), (2, false)] ∧
    (postOrders exDB [(1, 7)]).1.order_batch_picks.map
      (fun pk => (pk.batch_id, pk.quantity_picked)) = [(1, 5), (2, 2)] := by
  refine ⟨?_, List.sorted_insertionSort expiryLe _, by decide, by decide⟩
  intro b
  unfold fefoCandidates
  rw [List.mem_insertionSort, List.mem_filter]
  simp [and_assoc]

/-! ## C9: temperature alert classification -/

/-- C9: temperature alerts consider Cold Storage locations only; a location
is reported exactly when some alert condition holds, and it gets exactly the
one classification of highest priority — `No Readings` over `Low Temperature`
over `High Temperature` over `Stale Reading`; a location matching no
condition is not reported.  Cold Storage rows created through the API always
carry temperature bounds, the hypothesis here. -/
theorem c9_temperature_alerts (db : DB) (now : Int)
    (hcold : ∀ l ∈ db.storage_locations, l.location_type = "Cold Storage" →
      l.min_temp.isSome ∧ l.max_temp.isSome) :
    getTemperatureAlerts db now =
      (db.storage_locations.filter (fun l =>
          l.location_type == "Cold Storage" &&
          (priorityClassification now l).isSome)).map
        (fun l => (l.location_id, (priorityClassification now l).getD "")) := by
  have hfilter : ∀ l ∈ db.storage_locations,
      tempAlertCondition now l =
        (l.location_type == "Cold Storage" &&
          (priorityClassification now l).isSome) := by
    intro l hl
    by_cases hc : l.location_type = "Cold Storage"
    · obtain ⟨hmn', hmx'⟩ := hcold l hl hc
      obtain ⟨mn, hmn⟩ := Option.isSome_iff_exists.1 hmn'
      obtain ⟨mx, hmx⟩ := Option.isSome_iff_exists.1 hmx'
      unfold tempAlertCondition priorityClassification
      cases ht : l.latest_temperature with
      | none => simp [hc, ht]
      | some t =>
        cases hu : l.last_temp_update with
        | none => simp [hc, ht, hu, sqlLt, hmn, hmx]
        | some u =>
          simp only [hc, ht, hu, hmn, hmx, sqlLt, Option.isNone_none,
            Option.isNone_some, Option.isSome_some, Bool.false_or,
            Bool.or_false, beq_self_eq_true, Bool.true_and]
          by_cases h1 : t < mn <;> by_cases h2 : mx < t <;>
            by_cases h3 : u < now - 3600000 <;> simp [h1, h2, h3]
    · have hcb : (l.location_type == "Cold Storage") = false := by simp [hc]
      unfold tempAlertCondition
      rw [hcb]
      simp
  unfold getTemperatureAlerts
  rw [List.filter_congr hfilter]
  apply List.map_congr_left
  intro l hl
  obtain ⟨hl', hcond⟩ := List.mem_filter.1 hl
  have hc : l.location_type = "Cold Storage" := by
    rw [Bool.and_eq_true] at hcond
    simpa using hcond.1
  obtain ⟨hmn', hmx'⟩ := hcold l hl' hc
  obtain ⟨mn, hmn⟩ := Option.isSome_iff_exists.1 hmn'
  obtain ⟨mx, hmx⟩ := Option.isSome_iff_exists.1 hmx'
  unfold classifyTempAlert priorityClassification
  cases ht : l.latest_temperature with
  | none => simp [ht]
  | some t =>
    cases hu : l.last_temp_update with
    | none => simp [ht, hu]
    | some u =>
      simp only [ht, hu, hmn, hmx, sqlLt, jsNumber, Option.isNone_none,
        Option.isNone_some, Option.getD_some, Bool.false_or, Bool.or_false]
      by_cases h1 : t < mn <;> by_cases h2 : mx < t <;>
        by_cases h3 : u < now - 3600000 <;> simp [h1, h2, h3]

/-- Witness for C9 on `alertDB` at `now = 7200000`: each of the four alert
situations is classified once, by priority, and the healthy cold location and
the Ambient location are absent. -/
theorem c9_witness :
    (∀ l ∈ alertDB.storage_locations, l.location_type = "Cold Storage" →
      l.min_temp.isSome ∧ l.max_temp.isSome) ∧
    getTemperatureAlerts alertDB 7200000 =
      (alertDB.storage_locations.filter (fun l =>
          l.location_type == "Cold Storage" &&
          (priorityClassification 7200000 l).isSome)).map
        (fun l => (l.location_id, (priorityClassification 7200000 l).getD "")) ∧
    getTemperatureAlerts alertDB 7200000 =
      [(1, "No Readings"), (2, "Low Temperature"), (3, "High Temperature"),
        (4, "Stale Reading")] :=
  ⟨by decide, c9_temperature_alerts alertDB 7200000 (by decide), by decide⟩

/-! ## C5: occupancy versus capacity -/

/-- Counterexample to C5 as stated: a reachable store — created product,
created location of capacity 10, batch of quantity 5 created into it, batch
edited up to quantity 20 — in which a location's `current_occupancy` exceeds
its `capacity`.  The batch-edit path applies the quantity delta with no
capacity check. -/
theorem c5_counterexample :
    ∃ db, Reachable db ∧
      ¬ (∀ l ∈ db.storage_locations, l.current_occupancy ≤ l.capacity) := by
  refine ⟨overCapDB, ?_, by decide⟩
  exact Reachable.batchUpdate _ 1 1 "B1" none 20089 20 none "Available"
    (Reachable.batchCreate _ 1 "B1" none 20089 5 none
      (Reachable.location _ "A" "1" "1" "Ambient" 10 none none
        (Reachable.product _ "Milk" "Ambient" Reachable.init)))

/-- C5 amended: the allocator itself is safe — any location it returns has
room for the requested quantity on top of its current occupancy (and with it
the intake path cannot overfill) — but `current_occupancy ≤ capacity` is not
an invariant of all reachable states, because the batch-edit path adjusts
occupancy without a capacity check. -/
theorem c5_allocator_capacity (db : DB) (pid : Nat) (q : Int)
    (loc : StorageLocation)
    (h : findSuitableLocation db pid q = .ok (some loc)) :
    loc ∈ db.storage_locations ∧ loc.current_occupancy + q ≤ loc.capacity := by
  obtain ⟨p, _, hmem⟩ := findSuitableLocation_some db pid q loc h
  have := (mem_candidateLocations db p.category q loc).1 hmem
  exact ⟨this.1, this.2.2⟩

/-- Witness for the amended C5 on `coldDB`: the allocator's choice fits. -/
theorem c5_witness :
    findSuitableLocation coldDB 1 10 =
      .ok (some { location_id := 2, zone := "C", rack := "1", slot := "2"
                  location_type := "Cold Storage", capacity := 40
                  current_occupancy := 0, min_temp := some 2, max_temp := some 8
                  latest_temperature := some 5, last_temp_update := some 0 }) ∧
    ({ location_id := 2, zone := "C", rack := "1", slot := "2"
       location_type := "Cold Storage", capacity := 40, current_occupancy := 0
       min_temp := some 2, max_temp := some 8, latest_temperature := some 5
       last_temp_update := some 0 } : StorageLocation) ∈ coldDB.storage_locations ∧
    ((0 : Int) + 10 ≤ 40) := by
  have h : findSuitableLocation coldDB 1 10 =
      .ok (some { location_id := 2, zone := "C", rack := "1", slot := "2"
                  location_type := "Cold Storage", capacity := 40
                  current_occupancy := 0, min_temp := some 2, max_temp := some 8
                  latest_temperature := some 5, last_temp_update := some 0 }) := rfl
  have hcap := c5_allocator_capacity coldDB 1 10 _ h
  exact ⟨h, hcap.1, hcap.2⟩

/-! ## Helper lemmas relating the fulfillment loop to the greedy plan -/

/-- The depletion loop is exactly the fold of the greedy plan's picks over
the store, and the remaining quantity drops by the plan's total. -/
theorem consumeBatches_eq_applyPlan (oid : Nat) (cands : List Batch)
    (rem : Int) (db : DB) :
    consumeBatches oid cands rem db =
      ((greedyPlan cands rem).foldl (applyPlannedPick oid) db,
        rem - planTotal (greedyPlan cands rem)) := by
  induction cands generalizing rem db with
  | nil => simp [consumeBatches, greedyPlan, planTotal]
  | cons b rest ih =>
    rw [consumeBatches, greedyPlan]
    by_cases h : rem ≤ 0
    · rw [if_pos (by simpa using h), if_pos h]
      simp [planTotal]
    · rw [if_neg (by simpa using h), if_neg h]
      rw [List.foldl_cons, ih]
      simp only [Prod.mk.injEq]
      refine ⟨rfl, ?_⟩
      simp only [planTotal, List.map_cons, List.sum_cons]
      ring

/-- The batch table after a plan: each row's quantity drops by the plan's
takes against its batch id; no other column changes. -/
theorem foldl_applyPlan_batches (oid : Nat) (ps : List PlannedPick) (db : DB) :
    (ps.foldl (applyPlannedPick oid) db).batches =
      db.batches.map (fun b =>
        { b with quantity := b.quantity - planTakeFor ps b.batch_id }) := by
  induction ps generalizing db with
  | nil => simp [planTakeFor]
  | cons p ps ih =>
    rw [List.foldl_cons, ih]
    have happ : (applyPlannedPick oid db p).batches =
        db.batches.map (fun b => if b.batch_id == p.batch_id then
          { b with quantity := b.quantity - p.take } else b) := by
      unfold applyPlannedPick decBatchQty addPickRow bumpOccupancy
      cases p.assigned_location_id <;> rfl
    rw [happ, List.map_map]
    apply List.map_congr_left
    intro b _
    by_cases hb : b.batch_id = p.batch_id
    · simp only [Function.comp, hb, beq_self_eq_true, if_pos]
      simp [planTakeFor, List.filter_cons, hb, sub_sub]
    · simp only [Function.comp, hb, beq_iff_eq, if_neg]
      simp [planTakeFor, List.filter_cons, Ne.symm hb]

/-- The location table after a plan: each row's occupancy drops by the plan's
takes out of batches assigned there; picks with no assigned location touch no
occupancy. -/
theorem foldl_applyPlan_locations (oid : Nat) (ps : List PlannedPick) (db : DB) :
    (ps.foldl (applyPlannedPick oid) db).storage_locations =
      db.storage_locations.map (fun l =>
        { l with current_occupancy :=
            l.current_occupancy - planLocTake ps l.location_id }) := by
  induction ps generalizing db with
  | nil => simp [planLocTake]
  | cons p ps ih =>
    rw [List.foldl_cons, ih]
    have happ : (applyPlannedPick oid db p).storage_locations =
        db.storage_locations.map (fun l =>
          if p.assigned_location_id = some l.location_id then
            { l with current_occupancy := l.current_occupancy - p.take }
          else l) := by
      unfold applyPlannedPick decBatchQty addPickRow bumpOccupancy
      cases hp : p.assigned_location_id with
      | none =>
        show db.storage_locations = _
        have hid : ∀ l ∈ db.storage_locations,
            (if (none : Option Nat) = some l.location_id then
              { l with current_occupancy := l.current_occupancy - p.take }
            else l) = l := by
          intro l _
          simp
        rw [List.map_congr_left hid, List.map_id']
      | some lid =>
        show db.storage_locations.map _ = db.storage_locations.map _
        apply List.map_congr_left
        intro l _
        by_cases hc : l.location_id = lid
        · simp [hc, sub_eq_add_neg]
        · have hne : ¬ some lid = some l.location_id := by simp [Ne.symm hc]
          simp [hc, hne]
    rw [happ, List.map_map]
    apply List.map_congr_left
    intro l _
    by_cases hc : p.assigned_location_id = some l.location_id
    · simp only [Function.comp, hc, if_pos]
      simp [planLocTake, List.filter_cons, hc, sub_sub]
    · simp only [Function.comp, hc, if_neg]
      simp [planLocTake, List.filter_cons, hc]

/-- The picks recorded by a plan, in order: one `Pending Pick` per plan entry
for this order, appended after the existing rows. -/
theorem foldl_applyPlan_picks (oid : Nat) (ps : List PlannedPick) (db : DB) :
    (ps.foldl (applyPlannedPick oid) db).order_batch_picks.map
        (fun k => (k.order_id, k.batch_id, k.quantity_picked, k.status)) =
      db.order_batch_picks.map
        (fun k => (k.order_id, k.batch_id, k.quantity_picked, k.status)) ++
        ps.map (fun p => (oid, p.batch_id, p.take, "Pending Pick")) := by
  induction ps generalizing db with
  | nil => simp
  | cons p ps ih =>
    rw [List.foldl_cons, ih]
    have happ : (applyPlannedPick oid db p).order_batch_picks =
        db.order_batch_picks ++
          [{ pick_id := db.next_pick_id, order_id := oid, batch_id := p.batch_id
             quantity_picked := p.take, status := "Pending Pick" }] := by
      unfold applyPlannedPick decBatchQty addPickRow bumpOccupancy
      cases p.assigned_location_id <;> rfl
    rw [happ, List.map_append]
    simp

/-- A plan leaves the `order_items` table untouched. -/
theorem foldl_applyPlan_order_items (oid : Nat) (ps : List PlannedPick) (db : DB) :
    (ps.foldl (applyPlannedPick oid) db).order_items = db.order_items := by
  induction ps generalizing db with
  | nil => rfl
  | cons p ps ih =>
    rw [List.foldl_cons, ih]
    unfold applyPlannedPick decBatchQty addPickRow bumpOccupancy
    cases p.assigned_location_id <;> rfl

/-! ## C2: FEFO greedy fulfillment -/

/-- C2: fulfillment selects as candidates exactly the `Available` batches of
the product with positive quantity, in ascending expiry order, and the
depletion loop realises precisely the greedy plan: one `Pending Pick` per
consumed candidate, in order, each for `min(remaining, quantity)`; every
batch's quantity and every assigned location's occupancy drop by the plan's
takes (no occupancy change for unassigned batches), and the remainder drops
by the plan's total, the plan stopping once nothing remains.  Concretely, on
two batches of expiries 2025-01-01 and 2025-02-01 with quantity 5 each, an
order for 7 picks 5 from the first and then 2 from the second. -/
theorem c2_fefo_fulfillment (db : DB) (oid pid : Nat) (rem : Int)
    (cands : List Batch) :
    (∀ b, b ∈ fefoCandidates db pid ↔
      (b ∈ db.batches ∧ b.product_id = pid ∧ 0 < b.quantity ∧
        b.status = "Available")) ∧
    (fefoCandidates db pid).Sorted expiryLe ∧
    consumeBatches oid cands rem db =
      ((greedyPlan cands rem).foldl (applyPlannedPick oid) db,
        rem - planTotal (greedyPlan cands rem)) ∧
    ((greedyPlan cands rem).foldl (applyPlannedPick oid) db).order_batch_picks.map
        (fun k => (k.order_id, k.batch_id, k.quantity_picked, k.status)) =
      db.order_batch_picks.map
        (fun k => (k.order_id, k.batch_id, k.quantity_picked, k.status)) ++
        (greedyPlan cands rem).map
          (fun p => (oid, p.batch_id, p.take, "Pending Pick")) ∧
    ((greedyPlan cands rem).foldl (applyPlannedPick oid) db).batches =
      db.batches.map (fun b =>
        { b with quantity :=
            b.quantity - planTakeFor (greedyPlan cands rem) b.batch_id }) ∧
    ((greedyPlan cands rem).foldl (applyPlannedPick oid) db).storage_locations =
      db.storage_locations.map (fun l =>
        { l with current_occupancy :=
            l.current_occupancy -
              planLocTake (greedyPlan cands rem) l.location_id }) ∧
    (postOrders exDB [(1, 7)]).1.order_batch_picks.map
      (fun k => (k.batch_id, k.quantity_picked, k.status)) =
      [(1, 5, "Pending Pick"), (2, 2, "Pending Pick")] ∧
    (postOrders exDB [(1, 7)]).1.batches.map (fun b => (b.batch_id, b.quantity)) =
      [(1, 0), (2, 3)] ∧
    (postOrders exDB [(1, 7)]).1.storage_locations.map
      (fun l => (l.location_id, l.current_occupancy)) = [(1, 3)] := by
  refine ⟨?_, List.sorted_insertionSort expiryLe _,
    consumeBatches_eq_applyPlan oid cands rem db,
    foldl_applyPlan_picks oid (greedyPlan cands rem) db,
    foldl_applyPlan_batches oid (greedyPlan cands rem) db,
    foldl_applyPlan_locations oid (greedyPlan cands rem) db,
    by decide, by decide, by decide⟩
  intro b
  unfold fefoCandidates
  rw [List.mem_insertionSort, List.mem_filter]
  simp [and_assoc]

/-! ## Helper lemmas on order creation -/

/-- A failing `POST /orders` rolls back: the store it leaves is the store it
started from. -/
theorem postOrders_error_state (db : DB) (items : List (Nat × Int)) (e : String)
    (h : (postOrders db items).2 = .error e) : (postOrders db items).1 = db := by
  unfold postOrders
  by_cases hE : items.isEmpty
  · rw [if_pos hE]
  · rw [if_neg hE]
    cases hB : ordersBody db items with
    | error e' => rfl
    | ok db1 =>
      unfold postOrders at h
      rw [if_neg hE, hB] at h
      cases h

/-- A successful `POST /orders` is a successful transactional body. -/
theorem postOrders_ok_body (db : DB) (items : List (Nat × Int)) (db' : DB)
    (r : Nat) (h : postOrders db items = (db', .ok r)) :
    ordersBody db items = .ok db' := by
  unfold postOrders at h
  by_cases hE : items.isEmpty
  · rw [if_pos hE] at h
    cases Prod.mk.injEq .. ▸ h |>.2
  · rw [if_neg hE] at h
    cases hB : ordersBody db items with
    | error e' =>
      rw [hB] at h
      have h' : ((db, Except.error e') : DB × Except String Nat) = (db', .ok r) := h
      cases congrArg Prod.snd h'
    | ok db1 =>
      rw [hB] at h
      have h' : ((db1, Except.ok db.next_order_id) : DB × Except String Nat) =
        (db', .ok r) := h
      exact congrArg Except.ok (congrArg Prod.fst h')

/-- A successfully processed item appends exactly its `order_items` row. -/
theorem processOrderItem_ok_order_items (oid : Nat) (db dbx : DB)
    (item : Nat × Int) (h : processOrderItem oid db item = .ok dbx) :
    dbx.order_items = db.order_items ++
      [{ order_id := oid, product_id := item.1, quantity := item.2 }] := by
  unfold processOrderItem at h
  by_cases hv : (item.1 == 0 || decide (item.2 ≤ 0)) = true
  · rw [if_pos hv] at h
    cases h
  · rw [if_neg hv] at h
    by_cases hr : (decide (0 < (consumeBatches oid
        (fefoCandidates { db with order_items := db.order_items ++
          [{ order_id := oid, product_id := item.1, quantity := item.2 }] } item.1)
        item.2
        { db with order_items := db.order_items ++
          [{ order_id := oid, product_id := item.1, quantity := item.2 }] }).2)) = true
    · rw [if_pos hr] at h
      cases h
    · rw [if_neg hr] at h
      rw [← Except.ok.inj h, consumeBatches_eq_applyPlan,
        foldl_applyPlan_order_items]

/-- A successful item fold appends one `order_items` row per item, in order. -/
theorem foldlM_order_items (oid : Nat) (items : List (Nat × Int)) (db db' : DB)
    (h : items.foldlM (processOrderItem oid) db = .ok db') :
    db'.order_items = db.order_items ++
      items.map (fun it =>
        { order_id := oid, product_id := it.1, quantity := it.2 }) := by
  induction items generalizing db with
  | nil =>
    simp only [List.foldlM_nil] at h
    cases h
    simp
  | cons it rest ih =>
    rw [List.foldlM_cons] at h
    cases hstep : processOrderItem oid db it with
    | error e => rw [hstep] at h; cases h
    | ok dbx =>
      rw [hstep] at h
      have h' : rest.foldlM (processOrderItem oid) dbx = .ok db' := h
      have hx := ih dbx h'
      rw [hx, processOrderItem_ok_order_items oid db dbx it hstep,
        List.append_assoc]
      simp

/-! ## C3: order fulfillment is atomic -/

/-- C3: an item the greedy FEFO depletion cannot fully satisfy makes the
whole order fail with the insufficient-stock error, and any failing order
leaves the store exactly as it was — all batch quantity decrements, occupancy
decrements, order, order-item and pick insertions undone.  Concretely, on
`exDB` an order of items (4 of product 1, then 99 of product 1) fails after
its first item already depleted stock, and the final store equals `exDB`. -/
theorem c3_order_atomicity (db : DB) (items : List (Nat × Int)) (e : String) :
    ((postOrders db items).2 = .error e → (postOrders db items).1 = db) ∧
    (¬ items.isEmpty = true → ordersBody db items = .error e →
      postOrders db items = (db, .error e)) ∧
    (∀ oid (dbx : DB) (item : Nat × Int), ¬ item.1 = 0 → 0 < item.2 →
      0 < (consumeBatches oid
        (fefoCandidates { dbx with order_items := dbx.order_items ++
          [{ order_id := oid, product_id := item.1, quantity := item.2 }] } item.1)
        item.2
        { dbx with order_items := dbx.order_items ++
          [{ order_id := oid, product_id := item.1, quantity := item.2 }] }).2 →
      processOrderItem oid dbx item = .error "Insufficient stock for product.") ∧
    postOrders exDB [(1, 4), (1, 99)] =
      (exDB, .error "Insufficient stock for product.") := by
  refine ⟨postOrders_error_state db items e, ?_, ?_, rfl⟩
  · intro hE hB
    unfold postOrders
    rw [if_neg hE, hB]
  · intro oid dbx item h1 h2 hrem
    have hcond : (item.1 == 0 || decide (item.2 ≤ 0)) = false := by
      simp only [Bool.or_eq_false_iff, beq_eq_false_iff_ne, ne_eq,
        decide_eq_false_iff_not, not_le]
      exact ⟨h1, h2⟩
    simp only [processOrderItem, hcond, decide_eq_true_eq]
    rw [if_neg (show ¬(false = true) by simp), if_pos hrem]

/-- Witness for C3: the two-item order on `exDB` fails on its second item and
the store rolls back to `exDB`; the insufficiency condition is discharged
concretely. -/
theorem c3_witness :
    (postOrders exDB [(1, 4), (1, 99)]).1 = exDB ∧
    postOrders exDB [(1, 99)] = (exDB, .error "Insufficient stock for product.") ∧
    processOrderItem 1 exDB (1, 99) = .error "Insufficient stock for product." := by
  have h := c3_order_atomicity exDB [(1, 4), (1, 99)] "Insufficient stock for product."
  have h2 := c3_order_atomicity exDB [(1, 99)] "Insufficient stock for product."
  refine ⟨h.1 rfl, h2.2.1 (by decide) rfl, ?_⟩
  exact h.2.2.1 1 exDB (1, 99) (by decide) (by decide) (by decide)

/-! ## C6: order items do not survive a failed order -/

/-- Counterexample to C6 as stated: an order that fails with insufficient
stock leaves no OrderItem record — the rollback at the end of `POST /orders`
undoes the `order_items` inserts along with everything else, so the record of
unmet demand does not survive the failure. -/
theorem c6_counterexample :
    (postOrders exDB [(1, 99)]).2 = .error "Insufficient stock for product." ∧
    (postOrders exDB [(1, 99)]).1.order_items = [] :=
  ⟨rfl, rfl⟩

/-- C6 amended: an OrderItem row is inserted for every item during
processing, before that item's depletion, so a successful order persists one
row per requested item, in order; but the rows live inside the order's
transaction, so when fulfillment fails the rollback removes them and the
`order_items` table is left unchanged. -/
theorem c6_order_items_audit (db : DB) (items : List (Nat × Int)) :
    (∀ db' r, postOrders db items = (db', .ok r) →
      db'.order_items = db.order_items ++
        items.map (fun it =>
          { order_id := db.next_order_id, product_id := it.1
            quantity := it.2 })) ∧
    (∀ e, (postOrders db items).2 = .error e →
      (postOrders db items).1.order_items = db.order_items) := by
  constructor
  · intro db' r h
    have hB := postOrders_ok_body db items db' r h
    unfold ordersBody at hB
    exact foldlM_order_items db.next_order_id items
      { db with
          orders := db.orders ++ [{ order_id := db.next_order_id, status := "Pending" }]
          next_order_id := db.next_order_id + 1 } db' hB
  · intro e h
    rw [postOrders_error_state db items e h]

/-- Witness for the amended C6: a successful order on `exDB` records its
item; the failing order records nothing. -/
theorem c6_witness :
    (postOrders exDB [(1, 7)]).1.order_items =
      exDB.order_items ++ [{ order_id := 1, product_id := 1, quantity := 7 }] ∧
    (postOrders exDB [(1, 99)]).1.order_items = exDB.order_items := by
  constructor
  · exact (c6_order_items_audit exDB [(1, 7)]).1 _ 1 rfl
  · exact (c6_order_items_audit exDB [(1, 99)]).2
      "Insufficient stock for product." rfl

/-! ## Preservation of well-formedness and the ledger invariant -/

/-- Occupancy bumps do not disturb well-formedness. -/
theorem wf_bumpOccupancy (db : DB) (lid : Nat) (delta : Int) (h : Wf db) :
    Wf (bumpOccupancy db lid delta) := by
  constructor
  · exact h.batchIdsNodup
  · exact h.batchIdsLt
  · intro l hl
    rcases List.mem_map.1 hl with ⟨l0, hl0, hEq⟩
    have hid : l.location_id = l0.location_id := by
      rw [← hEq]
      by_cases hc : l0.location_id = lid <;> simp [hc]
    rw [hid]
    exact h.locationIdsLt l0 hl0
  · exact h.assignedLt

/-- Rewriting batch rows without touching their ids or assigned locations
keeps well-formedness. -/
theorem wf_map_batches (db : DB) (g : Batch → Batch)
    (hid : ∀ b, (g b).batch_id = b.batch_id)
    (hloc : ∀ b, (g b).assigned_location_id = b.assigned_location_id)
    (h : Wf db) : Wf { db with batches := db.batches.map g } := by
  have hids : (db.batches.map g).map Batch.batch_id = db.batches.map Batch.batch_id := by
    rw [List.map_map]
    exact List.map_congr_left (fun b _ => hid b)
  constructor
  · show ((db.batches.map g).map Batch.batch_id).Nodup
    rw [hids]
    exact h.batchIdsNodup
  · intro b hb
    rcases List.mem_map.1 hb with ⟨b0, hb0, hEq⟩
    show b.batch_id < db.next_batch_id
    rw [← hEq, hid b0]
    exact h.batchIdsLt b0 hb0
  · exact h.locationIdsLt
  · intro b hb lid hblid
    rcases List.mem_map.1 hb with ⟨b0, hb0, hEq⟩
    apply h.assignedLt b0 hb0 lid
    rw [← hloc b0, hEq]
    exact hblid

/-- `POST /products` preserves well-formedness and the invariant. -/
theorem preserve_postProducts (db : DB) (n c : String)
    (h : Wf db ∧ occupancyInvariant db) :
    Wf (postProducts db n c).1 ∧ occupancyInvariant (postProducts db n c).1 := by
  unfold postProducts
  split
  · exact h
  · split
    · exact h
    · split
      · exact h
      · exact ⟨⟨h.1.batchIdsNodup, h.1.batchIdsLt, h.1.locationIdsLt, h.1.assignedLt⟩, h.2⟩

/-- `POST /storage_locations` preserves well-formedness and the invariant:
the new location starts at occupancy 0 and no batch is assigned to its fresh
id. -/
theorem preserve_postStorageLocations (db : DB) (z r s t : String)
    (cap : Int) (mt xt : Option Int) (h : Wf db ∧ occupancyInvariant db) :
    Wf (postStorageLocations db z r s t cap mt xt).1 ∧
      occupancyInvariant (postStorageLocations db z r s t cap mt xt).1 := by
  obtain ⟨hwf, hinv⟩ := h
  unfold postStorageLocations
  split
  · exact ⟨hwf, hinv⟩
  · split
    · exact ⟨hwf, hinv⟩
    · split
      · exact ⟨hwf, hinv⟩
      · split
        · exact ⟨hwf, hinv⟩
        · constructor
          · constructor
            · exact hwf.batchIdsNodup
            · exact hwf.batchIdsLt
            · intro l hl
              rcases List.mem_append.1 hl with hl0 | hl1
              · exact Nat.lt_succ_of_lt (hwf.locationIdsLt l hl0)
              · rcases List.mem_singleton.1 hl1 with rfl
                exact Nat.lt_succ_self _
            · intro b hb lid hblid
              exact Nat.lt_succ_of_lt (hwf.assignedLt b hb lid hblid)
          · intro l hl
            rcases List.mem_append.1 hl with hl0 | hl1
            · exact hinv l hl0
            · rcases List.mem_singleton.1 hl1 with rfl
              show (0 : Int) = locationStock db.batches db.next_location_id
              rw [locationStock_eq_zero]
              intro b hb hba
              exact absurd (hwf.assignedLt b hb _ hba) (Nat.lt_irrefl _)

/-- `POST /temperature_logs` preserves well-formedness and the invariant: it
touches only the cached temperature columns. -/
theorem preserve_postTemperatureLogs (db : DB) (lid : Nat) (reading now : Int)
    (h : Wf db ∧ occupancyInvariant db) :
    Wf (postTemperatureLogs db lid reading now).1 ∧
      occupancyInvariant (postTemperatureLogs db lid reading now).1 := by
  obtain ⟨hwf, hinv⟩ := h
  constructor
  · constructor
    · exact hwf.batchIdsNodup
    · exact hwf.batchIdsLt
    · intro l hl
      rcases List.mem_map.1 hl with ⟨l0, hl0, hEq⟩
      have hid : l.location_id = l0.location_id := by
        rw [← hEq]
        by_cases hc : l0.location_id = lid <;> simp [hc]
      rw [hid]
      exact hwf.locationIdsLt l0 hl0
    · exact hwf.assignedLt
  · intro l hl
    rcases List.mem_map.1 hl with ⟨l0, hl0, hEq⟩
    have hocc : l.current_occupancy = l0.current_occupancy ∧
        l.location_id = l0.location_id := by
      rw [← hEq]
      by_cases hc : l0.location_id = lid <;> simp [hc]
    rw [hocc.1, hocc.2]
    exact hinv l0 hl0

/-- `PUT /orders/:orderId` preserves well-formedness and the invariant. -/
theorem preserve_putOrders (db : DB) (oid : Nat) (st : String)
    (h : Wf db ∧ occupancyInvariant db) :
    Wf (putOrders db oid st).1 ∧ occupancyInvariant (putOrders db oid st).1 := by
  unfold putOrders
  split
  · exact h
  · split
    · exact h
    · exact ⟨⟨h.1.batchIdsNodup, h.1.batchIdsLt, h.1.locationIdsLt, h.1.assignedLt⟩, h.2⟩

/-- `PUT /order_batch_picks/:pickId` preserves well-formedness and the
invariant. -/
theorem preserve_putOrderBatchPicks (db : DB) (pid : Nat) (st : String)
    (h : Wf db ∧ occupancyInvariant db) :
    Wf (putOrderBatchPicks db pid st).1 ∧
      occupancyInvariant (putOrderBatchPicks db pid st).1 := by
  unfold putOrderBatchPicks
  split
  · exact h
  · split
    · exact h
    · exact ⟨⟨h.1.batchIdsNodup, h.1.batchIdsLt, h.1.locationIdsLt, h.1.assignedLt⟩, h.2⟩

/-- `POST /batches` preserves well-formedness and the invariant: the batch is
appended with a fresh id and the allocated location's occupancy rises by
exactly its quantity. -/
theorem preserve_postBatches (db : DB) (pid : Nat) (bn : String)
    (md : Option Int) (ed q : Int) (bc : Option String)
    (h : Wf db ∧ occupancyInvariant db) :
    Wf (postBatches db pid bn md ed q bc).1 ∧
      occupancyInvariant (postBatches db pid bn md ed q bc).1 := by
  obtain ⟨hwf, hinv⟩ := h
  unfold postBatches
  split
  · exact ⟨hwf, hinv⟩
  · split
    · exact ⟨hwf, hinv⟩
    · exact ⟨hwf, hinv⟩
    · rename_i loc heq
      split
      · exact ⟨hwf, hinv⟩
      · obtain ⟨p, _, hmem⟩ := findSuitableLocation_some db pid q loc heq
        have hloc := ((mem_candidateLocations db p.category q loc).1 hmem).1
        constructor
        · apply wf_bumpOccupancy
          constructor
          · show ((db.batches ++ [_]).map Batch.batch_id).Nodup
            rw [List.map_append]
            apply List.Nodup.append hwf.batchIdsNodup (List.nodup_singleton _)
            intro a ha ha'
            rcases List.mem_singleton.1 ha' with rfl
            rcases List.mem_map.1 ha with ⟨b0, hb0, hEq⟩
            exact absurd (hEq ▸ hwf.batchIdsLt b0 hb0) (Nat.lt_irrefl _)
          · intro b hb
            rcases List.mem_append.1 hb with hb0 | hb1
            · exact Nat.lt_succ_of_lt (hwf.batchIdsLt b hb0)
            · rcases List.mem_singleton.1 hb1 with rfl
              exact Nat.lt_succ_self _
          · exact hwf.locationIdsLt
          · intro b hb lid hbl
            rcases List.mem_append.1 hb with hb0 | hb1
            · exact hwf.assignedLt b hb0 lid hbl
            · rcases List.mem_singleton.1 hb1 with rfl
              rcases Option.some_inj.1 hbl with rfl
              exact hwf.locationIdsLt loc hloc
        · apply occInvOn_bump db.storage_locations db.batches _ loc.location_id q hinv
          intro x
          dsimp only [bumpOccupancy]
          rw [locationStock_append, locationStock_single]
          by_cases hx : x = loc.location_id
          · simp [hx]
          · have hne : ¬ (some loc.location_id = some x) := by
              simp [Ne.symm hx]
            simp [hx, hne]

/-- `PUT /batches/:id` preserves well-formedness and the invariant: the row
keeps its id and assigned location, and when a location is assigned its
occupancy moves by exactly the quantity delta. -/
theorem preserve_putBatches (db : DB) (id pid : Nat) (bn : String)
    (md : Option Int) (ed q : Int) (bc : Option String) (st : String)
    (h : Wf db ∧ occupancyInvariant db) :
    Wf (putBatches db id pid bn md ed q bc st).1 ∧
      occupancyInvariant (putBatches db id pid bn md ed q bc st).1 := by
  obtain ⟨hwf, hinv⟩ := h
  unfold putBatches
  split
  · exact ⟨hwf, hinv⟩
  · split
    · exact ⟨hwf, hinv⟩
    · rename_i old hfind
      split
      · exact ⟨hwf, hinv⟩
      · have hwf1 : Wf { db with batches := db.batches.map fun b =>
            if b.batch_id == id then
              { b with product_id := pid, batch_number := bn
                       manufacture_date := md, expiry_date := ed, quantity := q
                       barcode := bc.getD bn, status := st }
            else b } := by
          apply wf_map_batches db _ ?_ ?_ hwf
          · intro b
            by_cases hb : (b.batch_id == id) = true <;> simp [hb]
          · intro b
            by_cases hb : (b.batch_id == id) = true <;> simp [hb]
        split
        · rename_i lid hassigned
          constructor
          · exact wf_bumpOccupancy _ lid (q - old.quantity) hwf1
          · apply occInvOn_bump db.storage_locations db.batches _ lid
              (q - old.quantity) hinv
            intro x
            dsimp only [bumpOccupancy]
            rw [locationStock_map_update db.batches id
              (fun b => { b with product_id := pid, batch_number := bn
                                 manufacture_date := md, expiry_date := ed
                                 quantity := q, barcode := bc.getD bn
                                 status := st })
              (fun _ => rfl) hwf.batchIdsNodup old hfind x, hassigned]
            by_cases hx : x = lid
            · simp [hx]
            · have hne : ¬ (some lid = some x) := by simp [Ne.symm hx]
              simp [hx, hne]
        · rename_i hassigned
          constructor
          · exact hwf1
          · apply occInvOn_congr db.storage_locations db.batches _ hinv
            intro x
            dsimp only
            rw [locationStock_map_update db.batches id
              (fun b => { b with product_id := pid, batch_number := bn
                                 manufacture_date := md, expiry_date := ed
                                 quantity := q, barcode := bc.getD bn
                                 status := st })
              (fun _ => rfl) hwf.batchIdsNodup old hfind x, hassigned]
            simp

/-- `DELETE /batches/:id` preserves well-formedness and the invariant: the
row disappears and, when it was assigned, its location's occupancy drops by
its quantity. -/
theorem preserve_deleteBatches (db : DB) (id : Nat)
    (h : Wf db ∧ occupancyInvariant db) :
    Wf (deleteBatches db id).1 ∧ occupancyInvariant (deleteBatches db id).1 := by
  obtain ⟨hwf, hinv⟩ := h
  unfold deleteBatches
  split
  · exact ⟨hwf, hinv⟩
  · rename_i b hfind
    have hwf1 : Wf { db with
        order_batch_picks := db.order_batch_picks.filter fun p => !(p.batch_id == id)
        batches := db.batches.filter fun bb => !(bb.batch_id == id) } := by
      constructor
      · exact List.Nodup.sublist
          (List.Sublist.map _ (List.filter_sublist _)) hwf.batchIdsNodup
      · intro bb hbb
        exact hwf.batchIdsLt bb (List.mem_of_mem_filter hbb)
      · exact hwf.locationIdsLt
      · intro bb hbb lid hbl
        exact hwf.assignedLt bb (List.mem_of_mem_filter hbb) lid hbl
    split
    · rename_i lid hassigned
      constructor
      · exact wf_bumpOccupancy _ lid (-b.quantity) hwf1
      · apply occInvOn_bump db.storage_locations db.batches _ lid
          (-b.quantity) hinv
        intro x
        dsimp only [bumpOccupancy]
        rw [locationStock_filter_out db.batches id hwf.batchIdsNodup b hfind x,
          hassigned]
        by_cases hx : x = lid
        · simp [hx, sub_eq_add_neg]
        · have hne : ¬ (some lid = some x) := by simp [Ne.symm hx]
          simp [hx, hne]
    · rename_i hassigned
      constructor
      · exact hwf1
      · apply occInvOn_congr db.storage_locations db.batches _ hinv
        intro x
        dsimp only
        rw [locationStock_filter_out db.batches id hwf.batchIdsNodup b hfind x,
          hassigned]
        simp

/-- The batch table after one planned pick: the row with its id loses the
take; nothing else changes. -/
theorem applyPlannedPick_batches (oid : Nat) (db : DB) (p : PlannedPick) :
    (applyPlannedPick oid db p).batches =
      db.batches.map (fun b => if b.batch_id == p.batch_id then
        { b with quantity := b.quantity - p.take } else b) := by
  unfold applyPlannedPick decBatchQty addPickRow bumpOccupancy
  cases p.assigned_location_id <;> rfl

/-- The location table after one planned pick: the assigned location (when
present) loses the take from its occupancy. -/
theorem applyPlannedPick_locations (oid : Nat) (db : DB) (p : PlannedPick) :
    (applyPlannedPick oid db p).storage_locations =
      db.storage_locations.map (fun l =>
        if p.assigned_location_id = some l.location_id then
          { l with current_occupancy := l.current_occupancy - p.take }
        else l) := by
  unfold applyPlannedPick decBatchQty addPickRow bumpOccupancy
  cases hp : p.assigned_location_id with
  | none =>
    show db.storage_locations = _
    have hid : ∀ l ∈ db.storage_locations,
        (if (none : Option Nat) = some l.location_id then
          { l with current_occupancy := l.current_occupancy - p.take }
        else l) = l := by
      intro l _
      simp
    rw [List.map_congr_left hid, List.map_id']
  | some lid =>
    show db.storage_locations.map _ = db.storage_locations.map _
    apply List.map_congr_left
    intro l _
    by_cases hc : l.location_id = lid
    · simp [hc, sub_eq_add_neg]
    · have hne : ¬ some lid = some l.location_id := by simp [Ne.symm hc]
      simp [hc, hne]

/-- One planned pick leaves the id counters of batches and locations
untouched. -/
theorem applyPlannedPick_counters (oid : Nat) (db : DB) (p : PlannedPick) :
    (applyPlannedPick oid db p).next_batch_id = db.next_batch_id ∧
    (applyPlannedPick oid db p).next_location_id = db.next_location_id := by
  unfold applyPlannedPick decBatchQty addPickRow bumpOccupancy
  cases p.assigned_location_id <;> exact ⟨rfl, rfl⟩

/-- One planned pick preserves well-formedness and the ledger invariant, as
long as the pick's batch id and assigned location agree with a row of the
table — which is how the fulfillment loop builds them. -/
theorem applyPlannedPick_preserve (oid : Nat) (db : DB) (p : PlannedPick)
    (h : Wf db ∧ occupancyInvariant db)
    (hrow : ∃ row ∈ db.batches, row.batch_id = p.batch_id ∧
      row.assigned_location_id = p.assigned_location_id) :
    Wf (applyPlannedPick oid db p) ∧
      occupancyInvariant (applyPlannedPick oid db p) := by
  obtain ⟨row, hrowmem, hrid, hrloc⟩ := hrow
  have hfind : db.batches.find? (fun bb => bb.batch_id == p.batch_id) = some row := by
    have hf := find?_batch_eq_of_mem db.batches row h.1.batchIdsNodup hrowmem
    rw [hrid] at hf
    exact hf
  have hst : ∀ x, locationStock (applyPlannedPick oid db p).batches x =
      locationStock db.batches x +
        (if p.assigned_location_id = some x then -p.take else 0) := by
    intro x
    rw [applyPlannedPick_batches,
      locationStock_map_update db.batches p.batch_id
        (fun b => { b with quantity := b.quantity - p.take })
        (fun _ => rfl) h.1.batchIdsNodup row hfind x, hrloc]
    by_cases hx : p.assigned_location_id = some x
    · simp only [hx, if_pos]
      ring
    · simp [hx]
  constructor
  · have hwf1 : Wf { db with batches := db.batches.map fun b =>
        if b.batch_id == p.batch_id then
          { b with quantity := b.quantity - p.take } else b } := by
      apply wf_map_batches db _ ?_ ?_ h.1
      · intro b
        by_cases hb : (b.batch_id == p.batch_id) = true <;> simp [hb]
      · intro b
        by_cases hb : (b.batch_id == p.batch_id) = true <;> simp [hb]
    constructor
    · rw [applyPlannedPick_batches]
      exact hwf1.batchIdsNodup
    · intro bb hbb
      rw [applyPlannedPick_batches] at hbb
      rw [(applyPlannedPick_counters oid db p).1]
      exact hwf1.batchIdsLt bb hbb
    · intro l hl
      rw [applyPlannedPick_locations] at hl
      rcases List.mem_map.1 hl with ⟨l0, hl0, hEq⟩
      have hid : l.location_id = l0.location_id := by
        rw [← hEq]
        by_cases hc : p.assigned_location_id = some l0.location_id <;> simp [hc]
      rw [hid, (applyPlannedPick_counters oid db p).2]
      exact h.1.locationIdsLt l0 hl0
    · intro bb hbb lid hbl
      rw [applyPlannedPick_batches] at hbb
      rw [(applyPlannedPick_counters oid db p).2]
      exact hwf1.assignedLt bb hbb lid hbl
  · intro l hl
    rw [applyPlannedPick_locations] at hl
    rcases List.mem_map.1 hl with ⟨l0, hl0, hEq⟩
    rw [hst l.location_id]
    by_cases hc : p.assigned_location_id = some l0.location_id
    · have hl' : l = { l0 with current_occupancy := l0.current_occupancy - p.take } := by
        rw [← hEq, if_pos hc]
      subst hl'
      show l0.current_occupancy - p.take =
        locationStock db.batches l0.location_id +
          (if p.assigned_location_id = some l0.location_id then -p.take else 0)
      rw [if_pos hc, h.2 l0 hl0]
      ring
    · have hl' : l = l0 := by rw [← hEq, if_neg hc]
      subst hl'
      rw [if_neg hc, add_zero]
      exact h.2 l hl0

/-- A whole greedy plan preserves well-formedness and the invariant when
every entry agrees with a row of the table. -/
theorem foldl_plan_preserve (oid : Nat) (ps : List PlannedPick) :
    ∀ db : DB, Wf db ∧ occupancyInvariant db →
    (∀ p ∈ ps, ∃ row ∈ db.batches, row.batch_id = p.batch_id ∧
      row.assigned_location_id = p.assigned_location_id) →
    Wf (ps.foldl (applyPlannedPick oid) db) ∧
      occupancyInvariant (ps.foldl (applyPlannedPick oid) db) := by
  induction ps with
  | nil => intro db h _; exact h
  | cons p ps ih =>
    intro db h hc
    rw [List.foldl_cons]
    apply ih
    · exact applyPlannedPick_preserve oid db p h (hc p (List.mem_cons_self p ps))
    · intro p' hp'
      obtain ⟨row, hrowmem, h1, h2⟩ := hc p' (List.mem_cons_of_mem p hp')
      refine ⟨{ row with quantity := row.quantity -
          (if row.batch_id == p.batch_id then p.take else 0) }, ?_, h1, h2⟩
      rw [applyPlannedPick_batches]
      have : (if row.batch_id == p.batch_id then
          { row with quantity := row.quantity - p.take } else row) =
          { row with quantity := row.quantity -
            (if row.batch_id == p.batch_id then p.take else 0) } := by
        by_cases hb : (row.batch_id == p.batch_id) = true <;> simp [hb]
      exact this ▸ List.mem_map_of_mem _ hrowmem

/-- Every entry of a greedy plan takes its id and assigned location from a
candidate. -/
theorem greedyPlan_mem (cands : List Batch) (rem : Int) (p : PlannedPick)
    (hp : p ∈ greedyPlan cands rem) :
    ∃ b ∈ cands, b.batch_id = p.batch_id ∧
      b.assigned_location_id = p.assigned_location_id := by
  induction cands generalizing rem with
  | nil => simp [greedyPlan] at hp
  | cons b rest ih =>
    rw [greedyPlan] at hp
    by_cases hr : rem ≤ 0
    · rw [if_pos hr] at hp
      simp at hp
    · rw [if_neg hr] at hp
      rcases List.mem_cons.1 hp with rfl | hp'
      · exact ⟨b, List.mem_cons_self b rest, rfl, rfl⟩
      · obtain ⟨b', hb', h1, h2⟩ := ih (rem - min rem b.quantity) hp'
        exact ⟨b', List.mem_cons_of_mem b hb', h1, h2⟩

/-- One successfully processed order item preserves well-formedness and the
invariant. -/
theorem processOrderItem_preserve (oid : Nat) (db dbx : DB) (item : Nat × Int)
    (h : Wf db ∧ occupancyInvariant db)
    (hstep : processOrderItem oid db item = .ok dbx) :
    Wf dbx ∧ occupancyInvariant dbx := by
  unfold processOrderItem at hstep
  by_cases hv : (item.1 == 0 || decide (item.2 ≤ 0)) = true
  · rw [if_pos hv] at hstep
    cases hstep
  · rw [if_neg hv] at hstep
    by_cases hr : (decide (0 < (consumeBatches oid
        (fefoCandidates { db with order_items := db.order_items ++
          [{ order_id := oid, product_id := item.1, quantity := item.2 }] } item.1)
        item.2
        { db with order_items := db.order_items ++
          [{ order_id := oid, product_id := item.1, quantity := item.2 }] }).2)) = true
    · rw [if_pos hr] at hstep
      cases hstep
    · rw [if_neg hr] at hstep
      rw [← Except.ok.inj hstep, consumeBatches_eq_applyPlan]
      apply foldl_plan_preserve
      · exact ⟨⟨h.1.batchIdsNodup, h.1.batchIdsLt, h.1.locationIdsLt,
          h.1.assignedLt⟩, h.2⟩
      · intro p hp
        obtain ⟨b, hb, h1, h2⟩ := greedyPlan_mem _ _ p hp
        refine ⟨b, ?_, h1, h2⟩
        have hb' := (List.mem_insertionSort expiryLe).1 hb
        exact (List.mem_filter.1 hb').1

/-- The item fold of a successful order preserves well-formedness and the
invariant. -/
theorem foldlM_preserve (oid : Nat) (items : List (Nat × Int)) :
    ∀ db db' : DB, Wf db ∧ occupancyInvariant db →
    items.foldlM (processOrderItem oid) db = .ok db' →
    Wf db' ∧ occupancyInvariant db' := by
  induction items with
  | nil =>
    intro db db' h hf
    rw [List.foldlM_nil] at hf
    cases hf
    exact h
  | cons it rest ih =>
    intro db db' h hf
    rw [List.foldlM_cons] at hf
    cases hstep : processOrderItem oid db it with
    | error e => rw [hstep] at hf; cases hf
    | ok dbx =>
      rw [hstep] at hf
      have hf' : rest.foldlM (processOrderItem oid) dbx = .ok db' := hf
      exact ih dbx db' (processOrderItem_preserve oid db dbx it h hstep) hf'

/-- `POST /orders` preserves well-formedness and the invariant: on failure by
rollback, on success because each pick moves a batch quantity and its
location's occupancy in step. -/
theorem preserve_postOrders (db : DB) (items : List (Nat × Int))
    (h : Wf db ∧ occupancyInvariant db) :
    Wf (postOrders db items).1 ∧ occupancyInvariant (postOrders db items).1 := by
  unfold postOrders
  split
  · exact h
  · split
    · exact h
    · rename_i db1 hB
      unfold ordersBody at hB
      exact foldlM_preserve db.next_order_id items
        { db with
            orders := db.orders ++
              [{ order_id := db.next_order_id, status := "Pending" }]
            next_order_id := db.next_order_id + 1 } db1
        ⟨⟨h.1.batchIdsNodup, h.1.batchIdsLt, h.1.locationIdsLt,
          h.1.assignedLt⟩, h.2⟩ hB

/-- Every state reachable through the API is well-formed and satisfies the
occupancy ledger invariant. -/
theorem reachable_wf_inv (db : DB) (h : Reachable db) :
    Wf db ∧ occupancyInvariant db := by
  induction h with
  | init =>
    refine ⟨⟨?_, ?_, ?_, ?_⟩, ?_⟩
    · simp [initDB]
    · intro b hb; cases hb
    · intro l hl; cases hl
    · intro b hb; cases hb
    · intro l hl; cases hl
  | product db n c _ ih => exact preserve_postProducts db n c ih
  | location db z r s t cap mt xt _ ih =>
    exact preserve_postStorageLocations db z r s t cap mt xt ih
  | batchCreate db pid bn md ed q bc _ ih =>
    exact preserve_postBatches db pid bn md ed q bc ih
  | batchUpdate db id pid bn md ed q bc st _ ih =>
    exact preserve_putBatches db id pid bn md ed q bc st ih
  | batchDelete db id _ ih => exact preserve_deleteBatches db id ih
  | order db items _ ih => exact preserve_postOrders db items ih
  | tempLog db lid reading now _ ih =>
    exact preserve_postTemperatureLogs db lid reading now ih
  | orderStatus db oid st _ ih => exact preserve_putOrders db oid st ih
  | pickStatus db pid st _ ih => exact preserve_putOrderBatchPicks db pid st ih

/-! ## C1: the occupancy ledger invariant -/

/-- C1: after every mutating core operation — batch creation, batch quantity
edit, batch deletion, order fulfillment (and the remaining mutating
endpoints) — every storage location's `current_occupancy` equals the sum of
the quantities of the batches currently assigned to it: the invariant holds
in every state reachable from the fresh database, because each mutation path
adjusts the counter by the exact signed delta of the batch quantities it
changes. -/
theorem c1_occupancy_ledger (db : DB) (h : Reachable db) :
    occupancyInvariant db :=
  (reachable_wf_inv db h).2

/-- Witness for C1: the invariant holds concretely after a chain of product,
location, two batch creations and one order fulfillment. -/
theorem c1_witness : occupancyInvariant (postOrders exDB [(1, 7)]).1 :=
  c1_occupancy_ledger _
    (Reachable.order exDB [(1, 7)]
      (Reachable.batchCreate _ 1 "B2" none 20120 5 none
        (Reachable.batchCreate _ 1 "B1" none 20089 5 none
          (Reachable.location _ "A" "1" "1" "Ambient" 100 none none
            (Reachable.product _ "Milk" "Ambient" Reachable.init)))))

end MWIMS
